import Mathlib

set_option maxHeartbeats 1000000

namespace Game2048

/-!
Shallow embedding of the 2048 console game: `game.c` / `game.h` (grid engine,
animation pool, animation scheduler) and the virtual console
`console_model.c` / `console.h`.  C `int` values are modelled as `Int`,
unsigned quantities and array indices as `Nat`.  The 4x4 tile grid is a list
of rows, each a list of `Int` cells; cell reads go through `List.getD` with
default 0, matching the fact that the game only ever stores values into
cells it previously read as part of the same 4x4 array.
-/

/-- GRID_SIZE from game.h: width/height of the game grid. -/
def GRID_SIZE : Nat := 4

/-- MAX_ANIMATIONS from game.h: capacity of the animation pool. -/
def MAX_ANIMATIONS : Nat := 16

/-- ANI_STEP_SIZE from game.h: console cells an animated block travels per step. -/
def ANI_STEP_SIZE : Int := 1

/-- ANI_BLOCK_DEAD from game.h. -/
def ANI_BLOCK_DEAD : Int := 1

/-- ANI_BLOCK_IDLE from game.h. -/
def ANI_BLOCK_IDLE : Int := 2

/-- ANI_BLOCK_MOVING from game.h. -/
def ANI_BLOCK_MOVING : Int := 3

/-- CONSOLE_ROW from game.h: maps a grid row to a console row. -/
def CONSOLE_ROW (r : Nat) : Nat := r * 6 + 1

/-- CONSOLE_COL from game.h: maps a grid column to a console column. -/
def CONSOLE_COL (c : Nat) : Nat := c * 12 + 1

/-- animated_block_t from game.h.  `cur_row`/`cur_col`/`dest_row`/`dest_col`
are `uint8_t` in the source; they are modelled as `Nat` (the scheduler only
ever moves `cur` toward `dest`, so no wraparound can occur). -/
structure animated_block_t where
  moving_value : Int
  idle_value : Int
  cur_row : Nat
  cur_col : Nat
  dest_row : Nat
  dest_col : Nat
  state : Int
deriving DecidableEq

/-- The 4x4 number grid (`static int number_grid[GRID_SIZE][GRID_SIZE]`). -/
abbrev Grid := List (List Int)

/-- Read a cell of a row (C `grid[row][c]`). -/
def rcell (row : List Int) (c : Nat) : Int := row.getD c 0

/-- Read a cell of a grid (C `grid[r][c]`). -/
def gcell (g : Grid) (r c : Nat) : Int := rcell (g.getD r []) c

/-- Well-formedness of a grid value: it really is a 4x4 array. -/
def Grid.wf (g : Grid) : Prop :=
  g.length = GRID_SIZE ∧ ∀ row ∈ g, row.length = GRID_SIZE

instance (g : Grid) : Decidable (Grid.wf g) := by
  unfold Grid.wf; infer_instance

/-- One `add_animation` call issued by `shift_grid_left`, recorded in grid
coordinates (start = the cell the block leaves, end = where it lands). -/
structure AnimRec where
  start_row : Nat
  start_col : Nat
  end_row : Nat
  end_col : Nat
  start_val : Int
  end_val : Int
deriving DecidableEq

/-- Result of scanning one row in `shift_grid_left`. -/
structure ScanResult where
  cells : List Int
  delta : Int
  changed : Bool
  anims : List AnimRec
  bg : List Int
deriving DecidableEq

/-- The per-row loop of `shift_grid_left` (game.c lines 696-766).  `p` is
`prev_idx`, `k` is `cur_idx`.  In the C loop the local variables `prev_val`
and `cur_val` always equal `grid[row][prev_idx]` and `grid[row][cur_idx]`
at the top of an iteration (both are re-read from the array whenever the
indices move), so this embedding reads them directly from the row at the
top of each iteration.  `fuel` only bounds the recursion; the loop exit
condition is `cur_idx < GRID_SIZE` exactly as in the source, and the
initial fuel `GRID_SIZE` is enough for the entire walk.  `delta`
accumulates the score increase performed through `update_score`
(game.c lines 663-668). -/
def scanRow (r : Nat) (fuel : Nat) (cells : List Int) (p k : Nat)
    (delta : Int) (changed : Bool) (anims : List AnimRec) (bg : List Int) :
    ScanResult :=
  match fuel with
  | 0 => ⟨cells, delta, changed, anims, bg⟩
  | fuel + 1 =>
    if k < GRID_SIZE then
      let cur_val := rcell cells k
      let prev_val := rcell cells p
      if 0 < cur_val then
        if 0 < prev_val then
          if cur_val = prev_val then
            -- merge the blocks
            scanRow r fuel ((cells.set p (cur_val * 2)).set k 0) (p + 1) (k + 1)
              (delta + cur_val * 2) true
              (anims ++ [⟨r, k, r, p, cur_val, cur_val * 2⟩]) (bg.set k 0)
          else if p + 1 < k then
            -- slide the block over until it kisses the previous one
            scanRow r fuel ((cells.set (p + 1) cur_val).set k 0) (p + 1) (k + 1)
              delta true
              (anims ++ [⟨r, k, r, p + 1, cur_val, cur_val⟩]) (bg.set k 0)
          else
            -- already adjacent: only advance prev
            scanRow r fuel cells (p + 1) (k + 1) delta changed anims bg
        else
          -- prev cell is empty: slide cur all the way left, prev does not move
          scanRow r fuel ((cells.set p cur_val).set k 0) p (k + 1)
            delta true
            (anims ++ [⟨r, k, r, p, cur_val, cur_val⟩]) (bg.set k 0)
      else
        scanRow r fuel cells p (k + 1) delta changed anims bg
    else ⟨cells, delta, changed, anims, bg⟩

/-- Run the row loop of `shift_grid_left` on row `r` with the source's
initial state: `prev_idx = 0`, `cur_idx = 1`, no score yet, nothing moved,
and the background initialised to a copy of the row. -/
def shiftRowFull (r : Nat) (cells : List Int) : ScanResult :=
  scanRow r GRID_SIZE cells 0 1 0 false [] cells

/-- Result of `shift_grid_left`: the shifted grid, the score delta it fed
into `update_score`, the `something_shifted` flag, the animation records it
passed to `add_animation` (in call order), and the background snapshot. -/
structure ShiftRes where
  grid : Grid
  delta : Int
  changed : Bool
  anims : List AnimRec
  bg : Grid
deriving DecidableEq

/-- shift_grid_left (game.c lines 670-769): the background starts as a copy
of the grid and each row is processed independently by the row loop;
`something_shifted` is the disjunction of the per-row flags, the score
delta the sum, and the animation records are concatenated in row order. -/
def shift_grid_left (g : Grid) : ShiftRes :=
  let results := (List.range GRID_SIZE).map fun r => shiftRowFull r (g.getD r [])
  { grid := results.map (·.cells)
    delta := (results.map (·.delta)).sum
    changed := results.any (·.changed)
    anims := (results.map (·.anims)).flatten
    bg := results.map (·.bg) }

/-- reverse_rows (game.c lines 595-605): reverse each row in place. -/
def reverse_rows (g : Grid) : Grid := g.map List.reverse

/-- reverse_cols (game.c lines 583-593): reverse each column in place,
i.e. reverse the order of the rows. -/
def reverse_cols (g : Grid) : Grid := g.reverse

/-- transpose (game.c lines 569-581): swap elements across the diagonal.
The C routine swaps `grid[i][j]` with `grid[j][i]` in place on the static
4x4 array; on a 4x4 grid the result holds the old `grid[j][i]` at
position (i, j), which is what this embedding computes. -/
def transpose (g : Grid) : Grid :=
  (List.range GRID_SIZE).map fun i => (List.range GRID_SIZE).map fun j => gcell g j i

/-- rot_left (game.c lines 607-611): transpose, then reverse columns. -/
def rot_left (g : Grid) : Grid := reverse_cols (transpose g)

/-- rot_right (game.c lines 613-617): transpose, then reverse rows. -/
def rot_right (g : Grid) : Grid := reverse_rows (transpose g)

/-- add_animation (game.c lines 636-661): write the animation into the
first pool slot whose state is ANI_BLOCK_DEAD; if none exists, nothing
happens. -/
def add_animation : List animated_block_t → AnimRec → List animated_block_t
  | [], _ => []
  | b :: rest, a =>
    if b.state = ANI_BLOCK_DEAD then
      { moving_value := a.start_val
        idle_value := a.end_val
        cur_row := a.start_row
        cur_col := a.start_col
        dest_row := a.end_row
        dest_col := a.end_col
        state := ANI_BLOCK_MOVING } :: rest
    else b :: add_animation rest a

/-- Feed the animation records produced by `shift_grid_left` into the pool,
in call order (this is what the inlined `add_animation` calls do). -/
def applyAnims (pool : List animated_block_t) (anims : List AnimRec) :
    List animated_block_t :=
  anims.foldl add_animation pool

/-- Coordinate fixup performed by shift_left (game.c lines 777-785) on
every pool slot in MOVING state: grid coordinates become console
coordinates. -/
def fixupLeft (b : animated_block_t) : animated_block_t :=
  if b.state = ANI_BLOCK_MOVING then
    { b with
      cur_row := CONSOLE_ROW b.cur_row
      cur_col := CONSOLE_COL b.cur_col
      dest_row := CONSOLE_ROW b.dest_row
      dest_col := CONSOLE_COL b.dest_col }
  else b

/-- Coordinate fixup performed by shift_right (game.c lines 801-809):
columns are mirrored as GRID_SIZE - col - 1 before conversion. -/
def fixupRight (b : animated_block_t) : animated_block_t :=
  if b.state = ANI_BLOCK_MOVING then
    { b with
      cur_row := CONSOLE_ROW b.cur_row
      cur_col := CONSOLE_COL (GRID_SIZE - b.cur_col - 1)
      dest_row := CONSOLE_ROW b.dest_row
      dest_col := CONSOLE_COL (GRID_SIZE - b.dest_col - 1) }
  else b

/-- Coordinate fixup performed by shift_down (game.c lines 830-841). -/
def fixupDown (b : animated_block_t) : animated_block_t :=
  if b.state = ANI_BLOCK_MOVING then
    { b with
      cur_row := CONSOLE_ROW (GRID_SIZE - b.cur_col - 1)
      cur_col := CONSOLE_COL b.cur_row
      dest_row := CONSOLE_ROW (GRID_SIZE - b.dest_col - 1)
      dest_col := CONSOLE_COL b.dest_row }
  else b

/-- Coordinate fixup performed by shift_up (game.c lines 862-872). -/
def fixupUp (b : animated_block_t) : animated_block_t :=
  if b.state = ANI_BLOCK_MOVING then
    { b with
      cur_row := CONSOLE_ROW b.cur_col
      cur_col := CONSOLE_COL (GRID_SIZE - b.cur_row - 1)
      dest_row := CONSOLE_ROW b.dest_col
      dest_col := CONSOLE_COL (GRID_SIZE - b.dest_row - 1) }
  else b

/-- Result of the four public shift functions: the new number grid, the
animation pool, the return flag, the score delta and the background. -/
structure ShiftOut where
  grid : Grid
  pool : List animated_block_t
  changed : Bool
  delta : Int
  bg : Grid
deriving DecidableEq

/-- shift_left (game.c lines 771-788): shift_grid_left on the grid, then
convert the animation coordinates of MOVING slots to console coordinates
(only when something shifted). -/
def shift_left (g : Grid) (pool : List animated_block_t) : ShiftOut :=
  let res := shift_grid_left g
  let pool1 := applyAnims pool res.anims
  if res.changed then
    ⟨res.grid, pool1.map fixupLeft, true, res.delta, res.bg⟩
  else
    ⟨res.grid, pool1, false, res.delta, res.bg⟩

/-- shift_right (game.c lines 790-815): reverse the rows, shift left, fix
up animation coordinates and background when something shifted, and
un-reverse the rows of the grid. -/
def shift_right (g : Grid) (pool : List animated_block_t) : ShiftOut :=
  let res := shift_grid_left (reverse_rows g)
  let pool1 := applyAnims pool res.anims
  if res.changed then
    ⟨reverse_rows res.grid, pool1.map fixupRight, true, res.delta,
      reverse_rows res.bg⟩
  else
    ⟨reverse_rows res.grid, pool1, false, res.delta, res.bg⟩

/-- shift_down (game.c lines 817-847): rotate right, shift left, fix up
animations and rotate the background left when something shifted, and
rotate the grid back left. -/
def shift_down (g : Grid) (pool : List animated_block_t) : ShiftOut :=
  let res := shift_grid_left (rot_right g)
  let pool1 := applyAnims pool res.anims
  if res.changed then
    ⟨rot_left res.grid, pool1.map fixupDown, true, res.delta,
      rot_left res.bg⟩
  else
    ⟨rot_left res.grid, pool1, false, res.delta, res.bg⟩

/-- shift_up (game.c lines 849-879): rotate left, shift left, fix up
animations and rotate the background right when something shifted, and
rotate the grid back right. -/
def shift_up (g : Grid) (pool : List animated_block_t) : ShiftOut :=
  let res := shift_grid_left (rot_left g)
  let pool1 := applyAnims pool res.anims
  if res.changed then
    ⟨rot_right res.grid, pool1.map fixupUp, true, res.delta,
      rot_right res.bg⟩
  else
    ⟨rot_right res.grid, pool1, false, res.delta, res.bg⟩

/-- The body of the loop in step_moving_blocks (game.c lines 881-929) for a
single pool slot: move a MOVING block one step toward its destination, or
mark it IDLE if it is already there.  Returns the updated slot and the
slot's contribution to `something_moved` (true exactly when `done_moving`
stayed 0 for this slot). -/
def step_block (b : animated_block_t) : animated_block_t × Bool :=
  if b.state = ANI_BLOCK_MOVING then
    let row_delta : Int := (b.cur_row : Int) - (b.dest_row : Int)
    let col_delta : Int := (b.cur_col : Int) - (b.dest_col : Int)
    let rowRes : Nat × Bool :=
      if row_delta < 0 then
        let d := -row_delta
        (b.cur_row + (if d < ANI_STEP_SIZE then d else ANI_STEP_SIZE).toNat, true)
      else if 0 < row_delta then
        (b.cur_row - (if row_delta < ANI_STEP_SIZE then row_delta else ANI_STEP_SIZE).toNat, true)
      else (b.cur_row, false)
    let colRes : Nat × Bool :=
      if col_delta < 0 then
        let d := -col_delta
        (b.cur_col + (if d < ANI_STEP_SIZE then d else ANI_STEP_SIZE).toNat, true)
      else if 0 < col_delta then
        (b.cur_col - (if col_delta < ANI_STEP_SIZE then col_delta else ANI_STEP_SIZE).toNat, true)
      else (b.cur_col, false)
    if rowRes.2 = false ∧ colRes.2 = false then
      ({ b with state := ANI_BLOCK_IDLE }, false)
    else
      ({ b with cur_row := rowRes.1, cur_col := colRes.1 }, true)
  else (b, false)

/-- step_moving_blocks (game.c lines 881-929): iterate over the pool,
stepping every MOVING slot; `something_moved` is the disjunction of the
per-slot flags. -/
def step_moving_blocks : List animated_block_t → List animated_block_t × Bool
  | [] => ([], false)
  | b :: rest =>
    let head := step_block b
    let tail := step_moving_blocks rest
    (head.1 :: tail.1, head.2 || tail.2)

/-- Modelled from the spec wording of the scheduler ("move each axis toward
zero by min(distance, step_size) per tick"): one axis update. -/
def moveToward (cur dest : Nat) : Nat :=
  if cur < dest then cur + min (dest - cur) ANI_STEP_SIZE.toNat
  else cur - min (cur - dest) ANI_STEP_SIZE.toNat

/-- Modelled from the spec wording of the scheduler: what one tick does to
one pool slot.  A slot not in MOVING state is untouched; a MOVING slot
whose two axis distances are both zero transitions to IDLE; otherwise each
axis moves toward the destination by min(distance, step size). -/
def step_block_spec (b : animated_block_t) : animated_block_t :=
  if b.state = ANI_BLOCK_MOVING then
    if b.cur_row = b.dest_row ∧ b.cur_col = b.dest_col then
      { b with state := ANI_BLOCK_IDLE }
    else
      { b with
        cur_row := moveToward b.cur_row b.dest_row
        cur_col := moveToward b.cur_col b.dest_col }
  else b

/-- can_move (game.c lines 969-1009): a block can move if it is nonzero and
one of its four neighbours is empty or carries the same value.  The C
routine takes `int` row/col and guards `row - 1 >= 0` etc.; here indices
are `Nat` and the guard becomes `1 ≤ row`. -/
def can_move (row col : Nat) (g : Grid) : Bool :=
  let value := gcell g row col
  if value = 0 then false
  else if 1 ≤ row ∧ (gcell g (row - 1) col = 0 ∨ gcell g (row - 1) col = value) then true
  else if row + 1 < GRID_SIZE ∧ (gcell g (row + 1) col = 0 ∨ gcell g (row + 1) col = value) then true
  else if 1 ≤ col ∧ (gcell g row (col - 1) = 0 ∨ gcell g row (col - 1) = value) then true
  else if col + 1 < GRID_SIZE ∧ (gcell g row (col + 1) = 0 ∨ gcell g row (col + 1) = value) then true
  else false

/-- is_game_lost (game.c lines 1028-1041): the game is lost when no tile is
empty and no tile can move. -/
def is_game_lost (g : Grid) : Bool :=
  (List.range GRID_SIZE).all fun ii =>
    (List.range GRID_SIZE).all fun jj =>
      !(gcell g ii jj = 0 ∨ can_move ii jj g : Bool)

/-- Adjacency of two grid positions in the 4-neighbour sense (up, down,
left, right), used to state the claim about `is_game_lost`. -/
def adj4 (r c r2 c2 : Nat) : Prop :=
  (r = r2 ∧ (c + 1 = c2 ∨ c2 + 1 = c)) ∨ (c = c2 ∧ (r + 1 = r2 ∨ r2 + 1 = r))

instance (r c r2 c2 : Nat) : Decidable (adj4 r c r2 c2) := by
  unfold adj4; infer_instance

/-- One array access performed by shift_grid_left on the number grid:
whether it is a write, and the row/column indices used. -/
structure TraceEv where
  wr : Bool
  row : Nat
  col : Nat
deriving DecidableEq

/-- Instrumented version of the row loop of `shift_grid_left` (game.c lines
696-766) used for the memory-safety claim.  Unlike `scanRow` it carries the
C locals `prev_val` / `cur_val` explicitly and logs every read and write of
`grid[row][...]`, in program order.  Reads use the default `junk` for an
index outside the row, mirroring the fact that the C expression
`grid[row][cur_idx]` evaluated at `cur_idx = GRID_SIZE` yields whatever
bytes sit past the row.  Only the grid accesses are instrumented (the
background array and animation pool are omitted; the source only ever
writes those at `shift_background[row][cur_idx]` with `cur_idx` in range). -/
def scanRowT (r : Nat) (junk : Int) (fuel : Nat) (cells : List Int) (p k : Nat)
    (prev_val cur_val : Int) (changed : Bool) (trace : List TraceEv) :
    List Int × Bool × List TraceEv :=
  match fuel with
  | 0 => (cells, changed, trace)
  | fuel + 1 =>
    if k < GRID_SIZE then
      if 0 < cur_val then
        if 0 < prev_val then
          if cur_val = prev_val then
            let cells1 := (cells.set p (cur_val * 2)).set k 0
            let trace1 := trace ++ [⟨true, r, p⟩, ⟨true, r, k⟩, ⟨false, r, p + 1⟩]
            scanRowT r junk fuel cells1 (p + 1) (k + 1)
              (cells1.getD (p + 1) junk) (cells1.getD (k + 1) junk) true
              (trace1 ++ [⟨false, r, k + 1⟩])
          else if p + 1 < k then
            let cells1 := (cells.set (p + 1) cur_val).set k 0
            let trace1 := trace ++ [⟨true, r, p + 1⟩, ⟨true, r, k⟩, ⟨false, r, p + 1⟩]
            scanRowT r junk fuel cells1 (p + 1) (k + 1)
              (cells1.getD (p + 1) junk) (cells1.getD (k + 1) junk) true
              (trace1 ++ [⟨false, r, k + 1⟩])
          else
            scanRowT r junk fuel cells (p + 1) (k + 1)
              (cells.getD (p + 1) junk) (cells.getD (k + 1) junk) changed
              (trace ++ [⟨false, r, p + 1⟩, ⟨false, r, k + 1⟩])
        else
          let cells1 := (cells.set p cur_val).set k 0
          let trace1 := trace ++ [⟨true, r, p⟩, ⟨true, r, k⟩]
          scanRowT r junk fuel cells1 p (k + 1)
            cur_val (cells1.getD (k + 1) junk) true
            (trace1 ++ [⟨false, r, k + 1⟩])
      else
        scanRowT r junk fuel cells p (k + 1)
          prev_val (cells.getD (k + 1) junk) changed
          (trace ++ [⟨false, r, k + 1⟩])
    else (cells, changed, trace)

/-- Instrumented `shift_grid_left` over the whole grid: each row loop starts
by reading `grid[row][0]` and `grid[row][1]` (prev_val and cur_val). -/
def shift_grid_leftT (junk : Int) (g : Grid) : Grid × List TraceEv :=
  let results := (List.range GRID_SIZE).map fun r =>
    let row := g.getD r []
    scanRowT r junk GRID_SIZE row 0 1 (row.getD 0 junk) (row.getD 1 junk) false
      [⟨false, r, 0⟩, ⟨false, r, 1⟩]
  (results.map (·.1), (results.map (·.2.2)).flatten)

/-! Virtual console (console_model.c, console.h).  The byte buffer behind
`base_addr` is modelled as a total function from byte offsets to byte
values; cell (row, col) occupies bytes `2*(row*width+col)` (character) and
`2*(row*width+col)+1` (colour), exactly the address computation of
`get_addr`.  Reads the C program performs past the end of the buffer
(see `scroll_by_one`) simply read this function at large offsets. -/

/-- console_t from console.h (the `base_addr` buffer inlined as `buffer`).
`cursor.row` / `cursor.col` are `uint32_t`, modelled as `Nat`. -/
structure console_t where
  cursor_row : Nat
  cursor_col : Nat
  cursor_visible : Bool
  buffer : Nat → Int
  width : Nat
  height : Nat
  clear_color : Int
  term_color : Int

/-- get_addr (console_model.c lines 103-109): byte offset of a cell. -/
def get_addr (console : console_t) (row col : Nat) : Nat :=
  2 * (row * console.width + col)

/-- get_cursor_addr (console_model.c lines 111-116). -/
def get_cursor_addr (console : console_t) : Nat :=
  get_addr console console.cursor_row console.cursor_col

/-- is_valid_index (console_model.c lines 118-122); row/col are C ints. -/
def is_valid_index (console : console_t) (row col : Int) : Bool :=
  decide (0 ≤ row ∧ row < (console.height : Int) ∧ 0 ≤ col ∧ col < (console.width : Int))

/-- draw_char_at_addr (console_model.c lines 124-134): first byte the
character, second byte the colour. -/
def draw_char_at_addr (buf : Nat → Int) (addr : Nat) (ch color : Int) : Nat → Int :=
  fun i => if i = addr then ch else if i = addr + 1 then color else buf i

/-- The clear loop at the end of scroll_by_one (console_model.c lines
151-154) and the body of console_clear: starting at byte `base`, draw
`count` blank cells with the given colour, advancing two bytes at a time. -/
def clear_cells_from (buf : Nat → Int) (base : Nat) (count : Nat) (color : Int) :
    Nat → Int :=
  match count with
  | 0 => buf
  | c + 1 => clear_cells_from (draw_char_at_addr buf base 32 color) (base + 2) c color

/-- scroll_by_one (console_model.c lines 136-155): memmove the block of
`2 * h * (w - 1)` bytes starting at row 1 down to the buffer base, then
clear the last row.  (The byte count the source computes is
`2*h*(w-1)`, not the `2*(h-1)*w` bytes actually occupied by rows
1..h-1; since memmove copies as if through a temporary buffer, the
result is byte `i` holds old byte `i + 2*w` for every `i` below the
count.) -/
def scroll_by_one (console : console_t) : console_t :=
  let h := console.height
  let w := console.width
  let save_len := 2 * h * (w - 1)
  let moved : Nat → Int := fun i =>
    if i < save_len then console.buffer (i + 2 * w) else console.buffer i
  { console with
    buffer := clear_cells_from moved (get_addr console (h - 1) 0) w console.clear_color }

/-- retreat_cursor (console_model.c lines 288-296). -/
def retreat_cursor (console : console_t) : console_t :=
  if 0 < console.cursor_col then { console with cursor_col := console.cursor_col - 1 }
  else console

/-- newline (console_model.c lines 298-311): the Bool is the scroll signal. -/
def newline (console : console_t) : console_t × Bool :=
  if console.cursor_row = console.height - 1 then
    ({ console with cursor_col := 0 }, true)
  else
    ({ console with cursor_col := 0, cursor_row := console.cursor_row + 1 }, false)

/-- carriage_return (console_model.c lines 313-318). -/
def carriage_return (console : console_t) : console_t :=
  { console with cursor_col := 0 }

/-- advance_cursor (console_model.c lines 269-286): advance one column with
wraparound; the Bool is the scroll signal. -/
def advance_cursor (console : console_t) : console_t × Bool :=
  if console.cursor_col = console.width - 1 then
    if console.cursor_row = console.height - 1 then
      ({ console with cursor_col := 0 }, true)
    else
      ({ console with cursor_col := 0, cursor_row := console.cursor_row + 1 }, false)
  else
    ({ console with cursor_col := console.cursor_col + 1 }, false)

/-- console_putbyte (console_model.c lines 157-181).  Bytes are `Int`
(C char); 8 = backspace, 10 = newline, 13 = carriage return. -/
def console_putbyte (console : console_t) (ch : Int) : console_t :=
  if ch = 8 then
    let c1 := retreat_cursor console
    { c1 with
      buffer := draw_char_at_addr c1.buffer (get_cursor_addr c1) 32 c1.term_color }
  else if ch = 10 then
    let r := newline console
    if r.2 then scroll_by_one r.1 else r.1
  else if ch = 13 then carriage_return console
  else
    let c1 := { console with
      buffer := draw_char_at_addr console.buffer (get_cursor_addr console) ch
        console.term_color }
    let r := advance_cursor c1
    if r.2 then scroll_by_one r.1 else r.1

/-- console_putbytes (console_model.c lines 183-192): apply console_putbyte
to each of the first `len` bytes; a negative length is a no-op (the string
bytes are supplied as a list; the C pointer reads become `getD`). -/
def console_putbytes (console : console_t) (s : List Int) (len : Int) : console_t :=
  if len < 0 then console
  else (List.range len.toNat).foldl (fun c i => console_putbyte c (s.getD i 0)) console

/-- console_putstr (console_model.c lines 194-206): apply console_putbyte
to every byte before the terminating 0. -/
def console_putstr (console : console_t) (s : List Int) : console_t :=
  (s.takeWhile (· ≠ 0)).foldl console_putbyte console

/-- console_clear (console_model.c lines 208-224): blank every cell with
the clear colour and reset the cursor to (0,0). -/
def console_clear (console : console_t) : console_t :=
  { console with
    buffer := clear_cells_from console.buffer 0 (console.width * console.height)
      console.clear_color
    cursor_row := 0
    cursor_col := 0 }

/-- console_set_cursor (console_model.c lines 260-267): -1 and no mutation
on an invalid index, otherwise move the cursor and return 0. -/
def console_set_cursor (console : console_t) (row col : Int) : console_t × Int :=
  if is_valid_index console row col then
    ({ console with cursor_row := row.toNat, cursor_col := col.toNat }, 0)
  else (console, -1)

/-- console_draw_char (console_model.c lines 226-242): range-checked direct
cell write that bypasses the cursor. -/
def console_draw_char (console : console_t) (row col ch color : Int) : console_t :=
  if is_valid_index console row col then
    if 0 ≤ ch ∧ ch ≤ 255 then
      if 0 ≤ color ∧ color ≤ 255 then
        { console with
          buffer := draw_char_at_addr console.buffer
            (get_addr console row.toNat col.toNat) ch color }
      else console
    else console
  else console

/-- console_get (console_model.c lines 251-258): bounds-checked read of a
cell's character and colour; (0, 0) out of bounds.  The C function writes
through out parameters and never mutates the console. -/
def console_get (console : console_t) (row col : Int) : Int × Int :=
  if is_valid_index console row col then
    (console.buffer (get_addr console row.toNat col.toNat),
     console.buffer (get_addr console row.toNat col.toNat + 1))
  else (0, 0)

/-- The console contents at the moment scroll_by_one runs inside
console_putbyte: a newline touches no cell before scrolling, while an
ordinary byte has just been drawn at the cursor. -/
def preScroll (console : console_t) (ch : Int) : console_t :=
  if ch = 10 then console
  else
    { console with
      buffer := draw_char_at_addr console.buffer (get_cursor_addr console) ch
        console.term_color }

/-- Character byte of cell (row, col). -/
def cellChar (console : console_t) (row col : Nat) : Int :=
  console.buffer (get_addr console row col)

/-- Colour byte of cell (row, col). -/
def cellColor (console : console_t) (row col : Nat) : Int :=
  console.buffer (get_addr console row col + 1)

/-- The cursor is inside `[0,height) x [0,width)`. -/
def cursorOk (console : console_t) : Prop :=
  console.cursor_row < console.height ∧ console.cursor_col < console.width

/-- Sum of all tile values of a grid. -/
def gridSum (g : Grid) : Int := (g.map List.sum).sum

/-- Every cell read of the row yields a nonnegative value (cells past the
end read as 0). -/
def rowNonneg (row : List Int) : Prop := ∀ j, 0 ≤ rcell row j

/-- A tile value is empty or a power of two that is at least 2 — the
tile-grid data-model invariant for a single cell. -/
def cellPow2 (v : Int) : Prop := v = 0 ∨ ∃ m : Nat, 1 ≤ m ∧ v = 2 ^ m

/-- Every cell of the row is empty or a power of two that is at least 2. -/
def rowPow2 (row : List Int) : Prop := ∀ j, cellPow2 (rcell row j)

/-- Every row of the grid satisfies `rowPow2`. -/
def gridPow2 (g : Grid) : Prop := ∀ r, rowPow2 (g.getD r [])

/-- All zeros of the row form a suffix: a zero cell is never followed by a
nonzero cell. -/
def rowCompacted (row : List Int) : Prop :=
  ∀ i j, i ≤ j → rcell row i = 0 → rcell row j = 0

/-- No two horizontally adjacent cells of the row hold the same nonzero
value. -/
def rowNoAdjEq (row : List Int) : Prop :=
  ∀ i, i < GRID_SIZE - 1 → 0 < rcell row i → rcell row i ≠ rcell row (i + 1)

instance (row : List Int) : Decidable (rowNoAdjEq row) := by
  unfold rowNoAdjEq; infer_instance

/-- A 25x80 console like the game's `back_console`, with a blank buffer. -/
def demoConsole : console_t :=
  { cursor_row := 0
    cursor_col := 0
    cursor_visible := false
    buffer := fun _ => 32
    width := 80
    height := 25
    clear_color := 0
    term_color := 0 }

/-- A tiny console (width 3, height 2) whose buffer holds its own byte
offset, used to exercise the scroll behaviour. -/
def tinyConsole : console_t :=
  { cursor_row := 1
    cursor_col := 2
    cursor_visible := false
    buffer := fun i => (i : Int)
    width := 3
    height := 2
    clear_color := 7
    term_color := 1 }

/-! ## Generic helper lemmas about rows and cells -/

theorem range4_eq : List.range GRID_SIZE = [0, 1, 2, 3] := by decide

theorem rcell_eq_getElem? (row : List Int) (j : Nat) : rcell row j = row[j]?.getD 0 := by
  simp [rcell]

theorem rcell_oob (row : List Int) (j : Nat) (h : row.length ≤ j) : rcell row j = 0 := by
  simp [rcell_eq_getElem?, List.getElem?_eq_none h]

theorem rcell_set_self (row : List Int) (i : Nat) (x : Int) (h : i < row.length) :
    rcell (row.set i x) i = x := by
  simp [rcell_eq_getElem?, List.getElem?_set_self h]

theorem rcell_set_ne (row : List Int) (i j : Nat) (x : Int) (h : i ≠ j) :
    rcell (row.set i x) j = rcell row j := by
  simp [rcell_eq_getElem?, List.getElem?_set_ne h]

theorem sum_set_rcell (row : List Int) (i : Nat) (x : Int) (h : i < row.length) :
    (row.set i x).sum = row.sum - rcell row i + x := by
  induction row generalizing i with
  | nil => simp at h
  | cons a t ih =>
    cases i with
    | zero => simp [rcell]; ring
    | succ i =>
      have h2 : i < t.length := by simpa using h
      simp [rcell, ih i h2]
      ring

theorem list_len4_eta {α : Type} (l : List α) (h : l.length = 4) :
    ∃ a b c d, l = [a, b, c, d] := by
  cases l with
  | nil => simp at h
  | cons a t1 =>
    cases t1 with
    | nil => simp at h
    | cons b t2 =>
      cases t2 with
      | nil => simp at h
      | cons c t3 =>
        cases t3 with
        | nil => simp at h
        | cons d t4 =>
          cases t4 with
          | nil => exact ⟨a, b, c, d, rfl⟩
          | cons e t5 => simp at h

theorem grid_eta (g : Grid) (h : Grid.wf g) :
    ∃ r0 r1 r2 r3, g = [r0, r1, r2, r3] ∧
      r0.length = 4 ∧ r1.length = 4 ∧ r2.length = 4 ∧ r3.length = 4 := by
  obtain ⟨hl, hr⟩ := h
  obtain ⟨r0, r1, r2, r3, rfl⟩ := list_len4_eta g (by simpa [GRID_SIZE] using hl)
  refine ⟨r0, r1, r2, r3, rfl, ?_, ?_, ?_, ?_⟩ <;>
    simpa [GRID_SIZE] using hr _ (by simp)

theorem grid_eta16 (g : Grid) (hw : Grid.wf g) :
    ∃ a0 a1 a2 a3 b0 b1 b2 b3 c0 c1 c2 c3 d0 d1 d2 d3 : Int,
      g = [[a0, a1, a2, a3], [b0, b1, b2, b3], [c0, c1, c2, c3], [d0, d1, d2, d3]] := by
  obtain ⟨r0, r1, r2, r3, rfl, h0, h1, h2, h3⟩ := grid_eta g hw
  obtain ⟨a0, a1, a2, a3, rfl⟩ := list_len4_eta r0 h0
  obtain ⟨b0, b1, b2, b3, rfl⟩ := list_len4_eta r1 h1
  obtain ⟨c0, c1, c2, c3, rfl⟩ := list_len4_eta r2 h2
  obtain ⟨d0, d1, d2, d3, rfl⟩ := list_len4_eta r3 h3
  exact ⟨a0, a1, a2, a3, b0, b1, b2, b3, c0, c1, c2, c3, d0, d1, d2, d3, rfl⟩

/-! ## Claim C10: console_set_cursor error handling -/

/-- C10: for every console and every (row, col), `console_set_cursor`
returns the failure result -1 and leaves the entire console state
unchanged exactly when (row, col) is outside `[0,height) x [0,width)`;
otherwise it sets the cursor to (row, col), changes nothing else, and
returns 0. -/
theorem set_cursor_bounds (console : console_t) (row col : Int) :
    (¬ (0 ≤ row ∧ row < (console.height : Int) ∧ 0 ≤ col ∧ col < (console.width : Int)) →
        console_set_cursor console row col = (console, -1)) ∧
    ((0 ≤ row ∧ row < (console.height : Int) ∧ 0 ≤ col ∧ col < (console.width : Int)) →
        console_set_cursor console row col =
          ({ console with cursor_row := row.toNat, cursor_col := col.toNat }, 0)) := by
  constructor <;> intro h <;> simp [console_set_cursor, is_valid_index, h]

/-- Witness for the set-cursor claim: on the game's 25x80 console, (30, 5)
is rejected without mutation and (3, 4) moves the cursor. -/
theorem set_cursor_bounds_witness :
    console_set_cursor demoConsole 30 5 = (demoConsole, -1) ∧
    console_set_cursor demoConsole 3 4 =
      ({ demoConsole with cursor_row := 3, cursor_col := 4 }, 0) :=
  ⟨(set_cursor_bounds demoConsole 30 5).1 (by decide),
   (set_cursor_bounds demoConsole 3 4).2 (by decide)⟩

/-! ## Claim C6: the animation scheduler step -/

theorem step_block_fst (b : animated_block_t) :
    (step_block b).1 = step_block_spec b := by
  obtain ⟨mv, iv, cr, cc, dr, dc, st⟩ := b
  simp only [step_block, step_block_spec, moveToward, ANI_STEP_SIZE]
  split_ifs <;> simp_all <;> omega

theorem step_block_snd (b : animated_block_t) :
    (step_block b).2 = true ↔ (step_block_spec b).state = ANI_BLOCK_MOVING := by
  obtain ⟨mv, iv, cr, cc, dr, dc, st⟩ := b
  simp only [step_block, step_block_spec, moveToward, ANI_STEP_SIZE,
    ANI_BLOCK_MOVING, ANI_BLOCK_IDLE]
  split_ifs <;> simp_all <;> omega

/-- C6: one scheduler step maps each pool slot through the per-slot spec
(slots not in MOVING state are untouched; a MOVING slot whose row and
column distances are both zero becomes IDLE; otherwise each axis moves
toward the destination by min(distance, step size)), and the returned flag
is true exactly when some slot is still MOVING after the update. -/
theorem step_moving_blocks_spec (pool : List animated_block_t) :
    (step_moving_blocks pool).1 = pool.map step_block_spec ∧
    ((step_moving_blocks pool).2 = true ↔
      ∃ b ∈ (step_moving_blocks pool).1, b.state = ANI_BLOCK_MOVING) := by
  induction pool with
  | nil => simp [step_moving_blocks]
  | cons b rest ih =>
    obtain ⟨ih1, ih2⟩ := ih
    constructor
    · simp [step_moving_blocks, step_block_fst, ih1]
    · simp only [step_moving_blocks, List.map_cons, Bool.or_eq_true, ih1, ih2,
        step_block_fst, List.mem_cons]
      rw [step_block_snd]
      simp [step_block_fst, ih1]

/-- Witness for the scheduler claim: a pool with one MOVING block two cells
away from its destination, one MOVING block already at its destination,
and one DEAD block. -/
theorem step_moving_blocks_spec_witness :
    (step_moving_blocks
        [⟨2, 2, 1, 13, 1, 1, ANI_BLOCK_MOVING⟩,
         ⟨4, 4, 7, 1, 7, 1, ANI_BLOCK_MOVING⟩,
         ⟨0, 0, 0, 0, 0, 0, ANI_BLOCK_DEAD⟩]).1 =
      [⟨2, 2, 1, 13, 1, 1, ANI_BLOCK_MOVING⟩,
       ⟨4, 4, 7, 1, 7, 1, ANI_BLOCK_MOVING⟩,
       ⟨0, 0, 0, 0, 0, 0, ANI_BLOCK_DEAD⟩].map step_block_spec ∧
    ((step_moving_blocks
        [⟨2, 2, 1, 13, 1, 1, ANI_BLOCK_MOVING⟩,
         ⟨4, 4, 7, 1, 7, 1, ANI_BLOCK_MOVING⟩,
         ⟨0, 0, 0, 0, 0, 0, ANI_BLOCK_DEAD⟩]).2 = true ↔
      ∃ b ∈ (step_moving_blocks
        [⟨2, 2, 1, 13, 1, 1, ANI_BLOCK_MOVING⟩,
         ⟨4, 4, 7, 1, 7, 1, ANI_BLOCK_MOVING⟩,
         ⟨0, 0, 0, 0, 0, 0, ANI_BLOCK_DEAD⟩]).1, b.state = ANI_BLOCK_MOVING) :=
  step_moving_blocks_spec _

/-! ## Claim C5: the loss predicate -/

theorem can_move_false_iff (r c : Nat) (g : Grid) (hr : r < GRID_SIZE) (hc : c < GRID_SIZE) :
    can_move r c g = false ↔
      (gcell g r c = 0 ∨
        ∀ r2, r2 < GRID_SIZE → ∀ c2, c2 < GRID_SIZE → adj4 r c r2 c2 →
          gcell g r2 c2 ≠ 0 ∧ gcell g r2 c2 ≠ gcell g r c) := by
  simp only [GRID_SIZE] at hr hc ⊢
  simp only [can_move, GRID_SIZE]
  split_ifs with h0 h1 h2 h3 h4
  · simp [h0]
  · simp only [Bool.true_eq_false, false_iff]
    rintro (h | hall)
    · exact h0 h
    · obtain ⟨hz, hne⟩ := hall (r - 1) (by omega) c (by omega)
        (Or.inr ⟨rfl, Or.inr (by omega)⟩)
      rcases h1.2 with he | he
      · exact hz he
      · exact hne he
  · simp only [Bool.true_eq_false, false_iff]
    rintro (h | hall)
    · exact h0 h
    · obtain ⟨hz, hne⟩ := hall (r + 1) (by omega) c (by omega)
        (Or.inr ⟨rfl, Or.inl rfl⟩)
      rcases h2.2 with he | he
      · exact hz he
      · exact hne he
  · simp only [Bool.true_eq_false, false_iff]
    rintro (h | hall)
    · exact h0 h
    · obtain ⟨hz, hne⟩ := hall r (by omega) (c - 1) (by omega)
        (Or.inl ⟨rfl, Or.inr (by omega)⟩)
      rcases h3.2 with he | he
      · exact hz he
      · exact hne he
  · simp only [Bool.true_eq_false, false_iff]
    rintro (h | hall)
    · exact h0 h
    · obtain ⟨hz, hne⟩ := hall r (by omega) (c + 1) (by omega)
        (Or.inl ⟨rfl, Or.inl rfl⟩)
      rcases h4.2 with he | he
      · exact hz he
      · exact hne he
  · simp only [eq_self_iff_true, true_iff]
    refine Or.inr ?_
    intro r2 hr2 c2 hc2 hadj
    rcases hadj with ⟨rfl, hcc | hcc⟩ | ⟨rfl, hrr | hrr⟩
    · subst hcc
      have hb : c + 1 < 4 := hc2
      constructor
      · intro hzero
        exact h4 ⟨hb, Or.inl hzero⟩
      · intro heq
        exact h4 ⟨hb, Or.inr heq⟩
    · have h1c : 1 ≤ c := by omega
      have hcm : c - 1 = c2 := by omega
      rw [← hcm]
      constructor
      · intro hzero
        exact h3 ⟨h1c, Or.inl hzero⟩
      · intro heq
        exact h3 ⟨h1c, Or.inr heq⟩
    · subst hrr
      have hb : r + 1 < 4 := hr2
      constructor
      · intro hzero
        exact h2 ⟨hb, Or.inl hzero⟩
      · intro heq
        exact h2 ⟨hb, Or.inr heq⟩
    · have h1r : 1 ≤ r := by omega
      have hrm : r - 1 = r2 := by omega
      rw [← hrm]
      constructor
      · intro hzero
        exact h1 ⟨h1r, Or.inl hzero⟩
      · intro heq
        exact h1 ⟨h1r, Or.inr heq⟩

/-- C5: `is_game_lost` returns 1 exactly when every cell is nonzero and no
cell has a 4-neighbour (up, down, left, right) that is empty or equal to
it in value. -/
theorem is_game_lost_iff (g : Grid) :
    is_game_lost g = true ↔
      ∀ r, r < GRID_SIZE → ∀ c, c < GRID_SIZE →
        gcell g r c ≠ 0 ∧
        ∀ r2, r2 < GRID_SIZE → ∀ c2, c2 < GRID_SIZE → adj4 r c r2 c2 →
          gcell g r2 c2 ≠ 0 ∧ gcell g r2 c2 ≠ gcell g r c := by
  unfold is_game_lost
  simp only [List.all_eq_true, List.mem_range, Bool.not_eq_true',
    decide_eq_false_iff_not, not_or]
  constructor
  · intro h r hr c hc
    obtain ⟨hz, hcm⟩ := h r hr c hc
    refine ⟨hz, ?_⟩
    have hcm2 : can_move r c g = false := by
      simpa using hcm
    rcases (can_move_false_iff r c g hr hc).mp hcm2 with h0 | hall
    · exact absurd h0 hz
    · exact hall
  · intro h r hr c hc
    obtain ⟨hz, hall⟩ := h r hr c hc
    refine ⟨hz, ?_⟩
    have : can_move r c g = false :=
      (can_move_false_iff r c g hr hc).mpr (Or.inr hall)
    simp [this]

/-- Witness for the loss-predicate claim: a full alternating grid is
recognised as lost, and the neighbour characterisation holds of it. -/
theorem is_game_lost_iff_witness :
    is_game_lost [[2, 4, 2, 4], [4, 2, 4, 2], [2, 4, 2, 4], [4, 2, 4, 2]] = true ∧
    (∀ r, r < GRID_SIZE → ∀ c, c < GRID_SIZE →
      gcell [[2, 4, 2, 4], [4, 2, 4, 2], [2, 4, 2, 4], [4, 2, 4, 2]] r c ≠ 0 ∧
      ∀ r2, r2 < GRID_SIZE → ∀ c2, c2 < GRID_SIZE → adj4 r c r2 c2 →
        gcell [[2, 4, 2, 4], [4, 2, 4, 2], [2, 4, 2, 4], [4, 2, 4, 2]] r2 c2 ≠ 0 ∧
        gcell [[2, 4, 2, 4], [4, 2, 4, 2], [2, 4, 2, 4], [4, 2, 4, 2]] r2 c2 ≠
          gcell [[2, 4, 2, 4], [4, 2, 4, 2], [2, 4, 2, 4], [4, 2, 4, 2]] r c) :=
  ⟨by decide,
   (is_game_lost_iff [[2, 4, 2, 4], [4, 2, 4, 2], [2, 4, 2, 4], [4, 2, 4, 2]]).mp
     (by decide)⟩

/-! ## Claim C4: the direction wrappers reuse the shift-left primitive -/

/-- C4: the grid produced by shift_right is the row-reversal of the
shift-left primitive applied to the row-reversed grid; shift_down is
rotate-left of the primitive applied to the rotated-right grid; shift_up
is rotate-right of the primitive applied to the rotated-left grid; and the
transform / un-transform round-trips are lossless on 4x4 grids. -/
theorem shift_directions_via_left (g : Grid) (pool : List animated_block_t)
    (hw : Grid.wf g) :
    (shift_right g pool).grid = reverse_rows ((shift_grid_left (reverse_rows g)).grid) ∧
    (shift_down g pool).grid = rot_left ((shift_grid_left (rot_right g)).grid) ∧
    (shift_up g pool).grid = rot_right ((shift_grid_left (rot_left g)).grid) ∧
    rot_left (rot_right g) = g ∧ rot_right (rot_left g) = g ∧
    reverse_rows (reverse_rows g) = g := by
  refine ⟨?_, ?_, ?_, ?_, ?_, ?_⟩
  · simp only [shift_right]
    split <;> rfl
  · simp only [shift_down]
    split <;> rfl
  · simp only [shift_up]
    split <;> rfl
  all_goals
    obtain ⟨a0, a1, a2, a3, b0, b1, b2, b3, c0, c1, c2, c3, d0, d1, d2, d3, rfl⟩ :=
      grid_eta16 g hw
  · rfl
  · rfl
  · rfl

/-- Witness for the direction-wrapper claim at a concrete grid. -/
theorem shift_directions_via_left_witness :
    (shift_right [[2, 2, 0, 0], [0, 4, 4, 0], [0, 0, 8, 8], [16, 0, 0, 16]] []).grid =
      reverse_rows ((shift_grid_left (reverse_rows
        [[2, 2, 0, 0], [0, 4, 4, 0], [0, 0, 8, 8], [16, 0, 0, 16]])).grid) ∧
    (shift_down [[2, 2, 0, 0], [0, 4, 4, 0], [0, 0, 8, 8], [16, 0, 0, 16]] []).grid =
      rot_left ((shift_grid_left (rot_right
        [[2, 2, 0, 0], [0, 4, 4, 0], [0, 0, 8, 8], [16, 0, 0, 16]])).grid) ∧
    (shift_up [[2, 2, 0, 0], [0, 4, 4, 0], [0, 0, 8, 8], [16, 0, 0, 16]] []).grid =
      rot_right ((shift_grid_left (rot_left
        [[2, 2, 0, 0], [0, 4, 4, 0], [0, 0, 8, 8], [16, 0, 0, 16]])).grid) ∧
    rot_left (rot_right [[2, 2, 0, 0], [0, 4, 4, 0], [0, 0, 8, 8], [16, 0, 0, 16]]) =
      [[2, 2, 0, 0], [0, 4, 4, 0], [0, 0, 8, 8], [16, 0, 0, 16]] ∧
    rot_right (rot_left [[2, 2, 0, 0], [0, 4, 4, 0], [0, 0, 8, 8], [16, 0, 0, 16]]) =
      [[2, 2, 0, 0], [0, 4, 4, 0], [0, 0, 8, 8], [16, 0, 0, 16]] ∧
    reverse_rows (reverse_rows [[2, 2, 0, 0], [0, 4, 4, 0], [0, 0, 8, 8], [16, 0, 0, 16]]) =
      [[2, 2, 0, 0], [0, 4, 4, 0], [0, 0, 8, 8], [16, 0, 0, 16]] :=
  shift_directions_via_left [[2, 2, 0, 0], [0, 4, 4, 0], [0, 0, 8, 8], [16, 0, 0, 16]] []
    (by decide)

/-! ## Lemmas about the row loop of shift_grid_left -/

theorem scanRow_changed_mono (r : Nat) (fuel : Nat) :
    ∀ (cells : List Int) (p k : Nat) (delta : Int) (anims : List AnimRec)
      (bg : List Int),
      (scanRow r fuel cells p k delta true anims bg).changed = true := by
  induction fuel with
  | zero => intro cells p k delta anims bg; rfl
  | succ fuel ih =>
    intro cells p k delta anims bg
    simp only [scanRow]
    split_ifs <;> first | apply ih | rfl

theorem scanRow_not_changed (r : Nat) (fuel : Nat) :
    ∀ (cells : List Int) (p k : Nat) (delta : Int) (changed : Bool)
      (anims : List AnimRec) (bg : List Int),
      (scanRow r fuel cells p k delta changed anims bg).changed = false →
      scanRow r fuel cells p k delta changed anims bg =
        ⟨cells, delta, changed, anims, bg⟩ := by
  induction fuel with
  | zero => intro cells p k delta changed anims bg _; rfl
  | succ fuel ih =>
    intro cells p k delta changed anims bg h
    simp only [scanRow] at h ⊢
    split_ifs at h ⊢
    · exact absurd h (by simp [scanRow_changed_mono])
    · exact absurd h (by simp [scanRow_changed_mono])
    · exact ih _ _ _ _ _ _ _ h
    · exact absurd h (by simp [scanRow_changed_mono])
    · exact ih _ _ _ _ _ _ _ h
    · rfl

/-- Compactness of the row follows from the loop invariant once the scan
pointer has left the row. -/
theorem compacted_of_inv (cells : List Int) (p k : Nat)
    (hlen : cells.length = 4) (hk : 4 ≤ k)
    (hmid : ∀ j, p < j → j < k → rcell cells j = 0)
    (hpre : ∀ j, j < p → 0 < rcell cells j) :
    rowCompacted cells := by
  intro i j hij hiz
  by_cases hj4 : 4 ≤ j
  · exact rcell_oob _ _ (by omega)
  · have hip : ¬ i < p := fun hlt => (hpre i hlt).ne' hiz
    by_cases hjp : j = p
    · have hi : i = p := by omega
      rw [hjp, ← hi]
      exact hiz
    · exact hmid j (by omega) (by omega)

/-- Main loop invariant of the row scan: the sum of the row is preserved,
and the final row is compacted, nonnegative and still of length 4.
`p < k` together with the two pointwise conditions (`cells` is zero
strictly between the settled pointer and the scan pointer, positive
strictly below the settled pointer) is the inductive invariant. -/
theorem scanRow_main (r : Nat) (fuel : Nat) :
    ∀ (cells : List Int) (p k : Nat) (delta : Int) (changed : Bool)
      (anims : List AnimRec) (bg : List Int),
      cells.length = 4 → p < k → 4 ≤ k + fuel →
      (∀ j, 0 ≤ rcell cells j) →
      (∀ j, p < j → j < k → rcell cells j = 0) →
      (∀ j, j < p → 0 < rcell cells j) →
      (scanRow r fuel cells p k delta changed anims bg).cells.sum = cells.sum ∧
      rowCompacted (scanRow r fuel cells p k delta changed anims bg).cells ∧
      (∀ j, 0 ≤ rcell (scanRow r fuel cells p k delta changed anims bg).cells j) ∧
      (scanRow r fuel cells p k delta changed anims bg).cells.length = 4 := by
  induction fuel with
  | zero =>
    intro cells p k delta changed anims bg hlen hpk hkf hnn hmid hpre
    exact ⟨rfl, compacted_of_inv cells p k hlen (by omega) hmid hpre, hnn, hlen⟩
  | succ fuel ih =>
    intro cells p k delta changed anims bg hlen hpk hkf hnn hmid hpre
    simp only [scanRow]
    split_ifs with hk hcv hpv heq hadj
    · -- merge branch
      have hk4 : k < 4 := by simpa [GRID_SIZE] using hk
      have hp4 : p < 4 := by omega
      have hlen1 : ((cells.set p (rcell cells k * 2)).set k 0).length = 4 := by
        simp [hlen]
      have hc1k : rcell ((cells.set p (rcell cells k * 2)).set k 0) k = 0 :=
        rcell_set_self _ _ _ (by simp [hlen]; omega)
      have hc1p : rcell ((cells.set p (rcell cells k * 2)).set k 0) p
          = rcell cells k * 2 := by
        rw [rcell_set_ne _ _ _ _ (by omega : k ≠ p)]
        exact rcell_set_self _ _ _ (by omega)
      have hc1other : ∀ j, j ≠ p → j ≠ k →
          rcell ((cells.set p (rcell cells k * 2)).set k 0) j = rcell cells j := by
        intro j hjp hjk
        rw [rcell_set_ne _ _ _ _ (fun h => hjk h.symm),
          rcell_set_ne _ _ _ _ (fun h => hjp h.symm)]
      have hsum1 : ((cells.set p (rcell cells k * 2)).set k 0).sum = cells.sum := by
        rw [sum_set_rcell _ _ _ (by simp [hlen]; omega),
          rcell_set_ne _ _ _ _ (by omega : p ≠ k),
          sum_set_rcell _ _ _ (by omega)]
        omega
      obtain ⟨hs, hcomp, hnn2, hlen2⟩ := ih _ (p + 1) (k + 1) (delta + rcell cells k * 2)
        true (anims ++ [⟨r, k, r, p, rcell cells k, rcell cells k * 2⟩]) (bg.set k 0)
        hlen1 (by omega) (by omega)
        (by
          intro j
          by_cases h1 : j = k
          · rw [h1, hc1k]
          · by_cases h2 : j = p
            · rw [h2, hc1p]
              have := hnn k
              omega
            · rw [hc1other j h2 h1]
              exact hnn j)
        (by
          intro j hj1 hj2
          by_cases h1 : j = k
          · rw [h1]; exact hc1k
          · rw [hc1other j (by omega) h1]
            exact hmid j (by omega) (by omega))
        (by
          intro j hj
          by_cases h2 : j = p
          · rw [h2, hc1p]
            omega
          · rw [hc1other j h2 (by omega)]
            exact hpre j (by omega))
      exact ⟨by rw [hs, hsum1], hcomp, hnn2, hlen2⟩
    · -- slide branch
      have hk4 : k < 4 := by simpa [GRID_SIZE] using hk
      have hp4 : p + 1 < 4 := by omega
      have hlen1 : ((cells.set (p + 1) (rcell cells k)).set k 0).length = 4 := by
        simp [hlen]
      have hc1k : rcell ((cells.set (p + 1) (rcell cells k)).set k 0) k = 0 :=
        rcell_set_self _ _ _ (by simp [hlen]; omega)
      have hc1p : rcell ((cells.set (p + 1) (rcell cells k)).set k 0) (p + 1)
          = rcell cells k := by
        rw [rcell_set_ne _ _ _ _ (by omega : k ≠ p + 1)]
        exact rcell_set_self _ _ _ (by omega)
      have hc1other : ∀ j, j ≠ p + 1 → j ≠ k →
          rcell ((cells.set (p + 1) (rcell cells k)).set k 0) j = rcell cells j := by
        intro j hjp hjk
        rw [rcell_set_ne _ _ _ _ (fun h => hjk h.symm),
          rcell_set_ne _ _ _ _ (fun h => hjp h.symm)]
      have hmidp1 : rcell cells (p + 1) = 0 := hmid (p + 1) (by omega) (by omega)
      have hsum1 : ((cells.set (p + 1) (rcell cells k)).set k 0).sum = cells.sum := by
        rw [sum_set_rcell _ _ _ (by simp [hlen]; omega),
          rcell_set_ne _ _ _ _ (by omega : p + 1 ≠ k),
          sum_set_rcell _ _ _ (by omega)]
        omega
      obtain ⟨hs, hcomp, hnn2, hlen2⟩ := ih _ (p + 1) (k + 1) delta
        true (anims ++ [⟨r, k, r, p + 1, rcell cells k, rcell cells k⟩]) (bg.set k 0)
        hlen1 (by omega) (by omega)
        (by
          intro j
          by_cases h1 : j = k
          · rw [h1, hc1k]
          · by_cases h2 : j = p + 1
            · rw [h2, hc1p]
              exact hnn k
            · rw [hc1other j h2 h1]
              exact hnn j)
        (by
          intro j hj1 hj2
          by_cases h1 : j = k
          · rw [h1]; exact hc1k
          · rw [hc1other j (by omega) h1]
            exact hmid j (by omega) (by omega))
        (by
          intro j hj
          by_cases h2 : j = p + 1
          · rw [h2, hc1p]
            exact hcv
          · rw [hc1other j h2 (by omega)]
            by_cases h3 : j = p
            · rw [h3]; exact hpv
            · exact hpre j (by omega))
      exact ⟨by rw [hs, hsum1], hcomp, hnn2, hlen2⟩
    · -- already adjacent: pointers advance, nothing moves
      have hk4 : k < 4 := by simpa [GRID_SIZE] using hk
      have hpk1 : p + 1 = k := by omega
      exact ih _ (p + 1) (k + 1) delta changed anims bg
        hlen (by omega) (by omega) hnn
        (by
          intro j hj1 hj2
          exact absurd hj1 (by omega))
        (by
          intro j hj
          by_cases h2 : j = p
          · rw [h2]; exact hpv
          · exact hpre j (by omega))
    · -- prev cell empty: slide all the way, prev does not advance
      have hk4 : k < 4 := by simpa [GRID_SIZE] using hk
      have hp4 : p < 4 := by omega
      have hpv0 : rcell cells p = 0 := by
        have := hnn p
        omega
      have hlen1 : ((cells.set p (rcell cells k)).set k 0).length = 4 := by
        simp [hlen]
      have hc1k : rcell ((cells.set p (rcell cells k)).set k 0) k = 0 :=
        rcell_set_self _ _ _ (by simp [hlen]; omega)
      have hc1p : rcell ((cells.set p (rcell cells k)).set k 0) p = rcell cells k := by
        rw [rcell_set_ne _ _ _ _ (by omega : k ≠ p)]
        exact rcell_set_self _ _ _ (by omega)
      have hc1other : ∀ j, j ≠ p → j ≠ k →
          rcell ((cells.set p (rcell cells k)).set k 0) j = rcell cells j := by
        intro j hjp hjk
        rw [rcell_set_ne _ _ _ _ (fun h => hjk h.symm),
          rcell_set_ne _ _ _ _ (fun h => hjp h.symm)]
      have hsum1 : ((cells.set p (rcell cells k)).set k 0).sum = cells.sum := by
        rw [sum_set_rcell _ _ _ (by simp [hlen]; omega),
          rcell_set_ne _ _ _ _ (by omega : p ≠ k),
          sum_set_rcell _ _ _ (by omega)]
        omega
      obtain ⟨hs, hcomp, hnn2, hlen2⟩ := ih _ p (k + 1) delta
        true (anims ++ [⟨r, k, r, p, rcell cells k, rcell cells k⟩]) (bg.set k 0)
        hlen1 (by omega) (by omega)
        (by
          intro j
          by_cases h1 : j = k
          · rw [h1, hc1k]
          · by_cases h2 : j = p
            · rw [h2, hc1p]
              exact hnn k
            · rw [hc1other j h2 h1]
              exact hnn j)
        (by
          intro j hj1 hj2
          by_cases h1 : j = k
          · rw [h1]; exact hc1k
          · rw [hc1other j (by omega) h1]
            exact hmid j (by omega) (by omega))
        (by
          intro j hj
          rw [hc1other j (by omega) (by omega)]
          exact hpre j hj)
      exact ⟨by rw [hs, hsum1], hcomp, hnn2, hlen2⟩
    · -- skip an empty scan cell
      have hk4 : k < 4 := by simpa [GRID_SIZE] using hk
      have hcv0 : rcell cells k = 0 := by
        have := hnn k
        omega
      exact ih _ p (k + 1) delta changed anims bg
        hlen (by omega) (by omega) hnn
        (by
          intro j hj1 hj2
          by_cases h1 : j = k
          · rw [h1]; exact hcv0
          · exact hmid j hj1 (by omega))
        hpre
    · -- scan pointer has left the row
      have hk4 : 4 ≤ k := by
        by_contra hcon
        exact hk (by simpa [GRID_SIZE] using hcon)
      exact ⟨rfl, compacted_of_inv cells p k hlen hk4 hmid hpre, hnn, hlen⟩

/-- The score increment of a row scan is a nonnegative multiple of 4
whenever every cell of the row is empty or a power of two at least 2 (each
merge adds twice such a power of two). -/
theorem scanRow_delta (r : Nat) (fuel : Nat) :
    ∀ (cells : List Int) (p k : Nat) (delta : Int) (changed : Bool)
      (anims : List AnimRec) (bg : List Int),
      cells.length = 4 → p < k → rowPow2 cells →
      ∃ d : Int, (scanRow r fuel cells p k delta changed anims bg).delta = delta + d ∧
        0 ≤ d ∧ (4 : Int) ∣ d := by
  induction fuel with
  | zero =>
    intro cells p k delta changed anims bg _ _ _
    exact ⟨0, by simp [scanRow], le_refl 0, dvd_zero 4⟩
  | succ fuel ih =>
    intro cells p k delta changed anims bg hlen hpk hpw
    simp only [scanRow]
    split_ifs with hk hcv hpv heq hadj
    · -- merge
      have hk4 : k < 4 := by simpa [GRID_SIZE] using hk
      have hp4 : p < 4 := by omega
      have hc1k : rcell ((cells.set p (rcell cells k * 2)).set k 0) k = 0 :=
        rcell_set_self _ _ _ (by simp [hlen]; omega)
      have hc1p : rcell ((cells.set p (rcell cells k * 2)).set k 0) p
          = rcell cells k * 2 := by
        rw [rcell_set_ne _ _ _ _ (by omega : k ≠ p)]
        exact rcell_set_self _ _ _ (by omega)
      have hc1other : ∀ j, j ≠ p → j ≠ k →
          rcell ((cells.set p (rcell cells k * 2)).set k 0) j = rcell cells j := by
        intro j hjp hjk
        rw [rcell_set_ne _ _ _ _ (fun h => hjk h.symm),
          rcell_set_ne _ _ _ _ (fun h => hjp h.symm)]
      obtain ⟨m, hm1, hm2⟩ : ∃ m : Nat, 1 ≤ m ∧ rcell cells k = 2 ^ m := by
        rcases hpw k with h0 | h
        · omega
        · exact h
      obtain ⟨m2, rfl⟩ : ∃ m2, m = m2 + 1 := ⟨m - 1, by omega⟩
      have hlen1 : ((cells.set p (rcell cells k * 2)).set k 0).length = 4 := by
        simp [hlen]
      obtain ⟨d1, hd1, hd1n, hd1dvd⟩ := ih _ (p + 1) (k + 1) (delta + rcell cells k * 2)
        true (anims ++ [⟨r, k, r, p, rcell cells k, rcell cells k * 2⟩]) (bg.set k 0)
        hlen1 (by omega)
        (by
          intro j
          by_cases h1 : j = k
          · rw [h1, hc1k]; exact Or.inl rfl
          · by_cases h2 : j = p
            · rw [h2, hc1p, hm2]
              exact Or.inr ⟨m2 + 2, by omega, by rw [pow_succ, pow_succ]; ring⟩
            · rw [hc1other j h2 h1]
              exact hpw j)
      refine ⟨rcell cells k * 2 + d1, by rw [hd1]; ring, by omega, ?_⟩
      refine dvd_add ⟨2 ^ m2, ?_⟩ hd1dvd
      rw [hm2, pow_succ]
      ring
    · -- slide: no score change
      have hk4 : k < 4 := by simpa [GRID_SIZE] using hk
      have hc1k : rcell ((cells.set (p + 1) (rcell cells k)).set k 0) k = 0 :=
        rcell_set_self _ _ _ (by simp [hlen]; omega)
      have hc1p : rcell ((cells.set (p + 1) (rcell cells k)).set k 0) (p + 1)
          = rcell cells k := by
        rw [rcell_set_ne _ _ _ _ (by omega : k ≠ p + 1)]
        exact rcell_set_self _ _ _ (by omega)
      have hc1other : ∀ j, j ≠ p + 1 → j ≠ k →
          rcell ((cells.set (p + 1) (rcell cells k)).set k 0) j = rcell cells j := by
        intro j hjp hjk
        rw [rcell_set_ne _ _ _ _ (fun h => hjk h.symm),
          rcell_set_ne _ _ _ _ (fun h => hjp h.symm)]
      have hlen1 : ((cells.set (p + 1) (rcell cells k)).set k 0).length = 4 := by
        simp [hlen]
      exact ih _ (p + 1) (k + 1) delta true
        (anims ++ [⟨r, k, r, p + 1, rcell cells k, rcell cells k⟩]) (bg.set k 0)
        hlen1 (by omega)
        (by
          intro j
          by_cases h1 : j = k
          · rw [h1, hc1k]; exact Or.inl rfl
          · by_cases h2 : j = p + 1
            · rw [h2, hc1p]
              exact hpw k
            · rw [hc1other j h2 h1]
              exact hpw j)
    · exact ih _ (p + 1) (k + 1) delta changed anims bg hlen (by omega) hpw
    · -- slide into the empty settled cell: no score change
      have hk4 : k < 4 := by simpa [GRID_SIZE] using hk
      have hp4 : p < 4 := by omega
      have hc1k : rcell ((cells.set p (rcell cells k)).set k 0) k = 0 :=
        rcell_set_self _ _ _ (by simp [hlen]; omega)
      have hc1p : rcell ((cells.set p (rcell cells k)).set k 0) p = rcell cells k := by
        rw [rcell_set_ne _ _ _ _ (by omega : k ≠ p)]
        exact rcell_set_self _ _ _ (by omega)
      have hc1other : ∀ j, j ≠ p → j ≠ k →
          rcell ((cells.set p (rcell cells k)).set k 0) j = rcell cells j := by
        intro j hjp hjk
        rw [rcell_set_ne _ _ _ _ (fun h => hjk h.symm),
          rcell_set_ne _ _ _ _ (fun h => hjp h.symm)]
      have hlen1 : ((cells.set p (rcell cells k)).set k 0).length = 4 := by
        simp [hlen]
      exact ih _ p (k + 1) delta true
        (anims ++ [⟨r, k, r, p, rcell cells k, rcell cells k⟩]) (bg.set k 0)
        hlen1 (by omega)
        (by
          intro j
          by_cases h1 : j = k
          · rw [h1, hc1k]; exact Or.inl rfl
          · by_cases h2 : j = p
            · rw [h2, hc1p]
              exact hpw k
            · rw [hc1other j h2 h1]
              exact hpw j)
    · exact ih _ p (k + 1) delta changed anims bg hlen (by omega) hpw
    · exact ⟨0, by simp, le_refl 0, dvd_zero 4⟩

/-- On a compacted, nonnegative row with no two adjacent equal nonzero
cells, the row scan does nothing at all, provided the loop invariant `the
settled pointer is just behind the scan pointer, or the cell after the
settled pointer is empty` holds. -/
theorem scanRow_noop (r : Nat) (fuel : Nat) :
    ∀ (cells : List Int) (p k : Nat) (delta : Int) (changed : Bool)
      (anims : List AnimRec) (bg : List Int),
      cells.length = 4 → p < k →
      (∀ j, 0 ≤ rcell cells j) →
      rowCompacted cells →
      rowNoAdjEq cells →
      (p + 1 = k ∨ rcell cells (p + 1) = 0) →
      scanRow r fuel cells p k delta changed anims bg =
        ⟨cells, delta, changed, anims, bg⟩ := by
  induction fuel with
  | zero => intro cells p k delta changed anims bg _ _ _ _ _ _; rfl
  | succ fuel ih =>
    intro cells p k delta changed anims bg hlen hpk hnn hcomp hna hJ
    simp only [scanRow]
    split_ifs with hk hcv hpv heq hadj
    · -- merge is impossible here
      have hk4 : k < 4 := by simpa [GRID_SIZE] using hk
      rcases hJ with hJ1 | hJ2
      · have hpv2 : 0 < rcell cells p := hpv
        have := hna p (by simp [GRID_SIZE]; omega) hpv2
        rw [hJ1] at this
        exact absurd heq (fun h => this h.symm)
      · by_cases hpe : p + 1 = k
        · rw [hpe] at hJ2
          omega
        · have := hcomp (p + 1) k (by omega) hJ2
          omega
    · -- a strict slide is impossible here
      rcases hJ with hJ1 | hJ2
      · omega
      · have := hcomp (p + 1) k (by omega) hJ2
        omega
    · -- adjacent: advance the pointers, no mutation
      have hk4 : k < 4 := by simpa [GRID_SIZE] using hk
      have hpe : p + 1 = k := by omega
      exact ih _ (p + 1) (k + 1) delta changed anims bg hlen (by omega) hnn hcomp hna
        (Or.inl (by omega))
    · -- the settled cell cannot be empty while the scan cell is nonzero
      have hk4 : k < 4 := by simpa [GRID_SIZE] using hk
      have hpv0 : rcell cells p = 0 := by
        have := hnn p
        omega
      have := hcomp p k (by omega) hpv0
      omega
    · -- skip
      have hk4 : k < 4 := by simpa [GRID_SIZE] using hk
      refine ih _ p (k + 1) delta changed anims bg hlen (by omega) hnn hcomp hna ?_
      rcases hJ with hJ1 | hJ2
      · refine Or.inr ?_
        rw [hJ1]
        have := hnn k
        omega
      · exact Or.inr hJ2
    · rfl

/-! ## Grid-level lemmas about shift_grid_left and the wrappers -/

theorem getD_range_map {α : Type} (f : Nat → α) (d : α) (i n : Nat) :
    ((List.range n).map f).getD i d = if i < n then f i else d := by
  by_cases h : i < n
  · simp [List.getD_eq_getElem?_getD, List.getElem?_map, List.getElem?_range, h]
  · rw [List.getD_eq_getElem?_getD,
      List.getElem?_eq_none (by simpa using Nat.le_of_not_lt h)]
    simp [h]

theorem getD_map {α β : Type} (f : α → β) (l : List α) (i : Nat) (d : α) :
    (l.map f).getD i (f d) = f (l.getD i d) := by
  simp only [List.getD_eq_getElem?_getD, List.getElem?_map]
  cases l[i]? <;> simp

theorem sgl_grid (g : Grid) :
    (shift_grid_left g).grid =
      (List.range GRID_SIZE).map fun r => (shiftRowFull r (g.getD r [])).cells := by
  simp [shift_grid_left, List.map_map, Function.comp_def]

theorem sgl_delta (g : Grid) :
    (shift_grid_left g).delta =
      ((List.range GRID_SIZE).map fun r => (shiftRowFull r (g.getD r [])).delta).sum := by
  simp [shift_grid_left, List.map_map, Function.comp_def]

theorem any_map_comp {α β : Type} (l : List α) (f : α → β) (p : β → Bool) :
    (l.map f).any p = l.any fun x => p (f x) := by
  induction l with
  | nil => rfl
  | cons a t ih => simp [List.any_cons, ih]

theorem sgl_changed (g : Grid) :
    (shift_grid_left g).changed =
      (List.range GRID_SIZE).any fun r => (shiftRowFull r (g.getD r [])).changed := by
  simp only [shift_grid_left]
  rw [any_map_comp]

theorem sgl_anims (g : Grid) :
    (shift_grid_left g).anims =
      ((List.range GRID_SIZE).map fun r => (shiftRowFull r (g.getD r [])).anims).flatten := by
  simp [shift_grid_left, List.map_map, Function.comp_def]

theorem map_getD_range (g : Grid) (hw : Grid.wf g) :
    ((List.range GRID_SIZE).map fun r => g.getD r []) = g := by
  obtain ⟨r0, r1, r2, r3, rfl, _, _, _, _⟩ := grid_eta g hw
  rfl

/-- When shift_grid_left reports that nothing moved, the grid is unchanged
and no animation record was produced. -/
theorem sgl_unchanged (g : Grid) (hw : Grid.wf g)
    (h : (shift_grid_left g).changed = false) :
    (shift_grid_left g).grid = g ∧ (shift_grid_left g).anims = [] := by
  rw [sgl_changed] at h
  have hrows : ∀ r ∈ List.range GRID_SIZE,
      shiftRowFull r (g.getD r []) = ⟨g.getD r [], 0, false, [], g.getD r []⟩ := by
    intro r hr
    have hfalse : (shiftRowFull r (g.getD r [])).changed = false := by
      by_contra hcon
      simp only [Bool.not_eq_false] at hcon
      have h2 : ((List.range GRID_SIZE).any
          fun r => (shiftRowFull r (g.getD r [])).changed) = true :=
        List.any_eq_true.mpr ⟨r, hr, hcon⟩
      rw [h] at h2
      exact absurd h2 (by simp)
    exact scanRow_not_changed r GRID_SIZE _ 0 1 0 false [] _ hfalse
  constructor
  · rw [sgl_grid, List.map_congr_left (fun r hr => by rw [hrows r hr])]
    exact map_getD_range g hw
  · rw [sgl_anims, List.map_congr_left (fun r hr => by rw [hrows r hr])]
    simp

theorem applyAnims_nil (pool : List animated_block_t) : applyAnims pool [] = pool := rfl

/-- Projections of the shift_left wrapper onto the primitive. -/
theorem shift_left_proj (g : Grid) (pool : List animated_block_t) :
    (shift_left g pool).grid = (shift_grid_left g).grid ∧
    (shift_left g pool).delta = (shift_grid_left g).delta ∧
    (shift_left g pool).changed = (shift_grid_left g).changed := by
  simp only [shift_left]
  split <;> simp_all

theorem shift_right_proj (g : Grid) (pool : List animated_block_t) :
    (shift_right g pool).grid = reverse_rows ((shift_grid_left (reverse_rows g)).grid) ∧
    (shift_right g pool).delta = (shift_grid_left (reverse_rows g)).delta ∧
    (shift_right g pool).changed = (shift_grid_left (reverse_rows g)).changed := by
  simp only [shift_right]
  split <;> simp_all

theorem shift_down_proj (g : Grid) (pool : List animated_block_t) :
    (shift_down g pool).grid = rot_left ((shift_grid_left (rot_right g)).grid) ∧
    (shift_down g pool).delta = (shift_grid_left (rot_right g)).delta ∧
    (shift_down g pool).changed = (shift_grid_left (rot_right g)).changed := by
  simp only [shift_down]
  split <;> simp_all

theorem shift_up_proj (g : Grid) (pool : List animated_block_t) :
    (shift_up g pool).grid = rot_right ((shift_grid_left (rot_left g)).grid) ∧
    (shift_up g pool).delta = (shift_grid_left (rot_left g)).delta ∧
    (shift_up g pool).changed = (shift_grid_left (rot_left g)).changed := by
  simp only [shift_up]
  split <;> simp_all

/-! ## Transform lemmas: well-formedness, sums and the tile invariant -/

theorem wf_reverse_rows (g : Grid) (hw : Grid.wf g) : Grid.wf (reverse_rows g) := by
  obtain ⟨h1, h2⟩ := hw
  constructor
  · simpa [reverse_rows] using h1
  · intro row h
    simp only [reverse_rows, List.mem_map] at h
    obtain ⟨row0, hmem, rfl⟩ := h
    simpa using h2 row0 hmem

theorem wf_reverse_cols (g : Grid) (hw : Grid.wf g) : Grid.wf (reverse_cols g) :=
  ⟨by simpa [reverse_cols] using hw.1,
   fun row h => hw.2 row (by simpa [reverse_cols] using h)⟩

theorem wf_transpose (g : Grid) : Grid.wf (transpose g) := by
  constructor
  · simp [transpose]
  · intro row h
    simp only [transpose, List.mem_map] at h
    obtain ⟨i, hi, rfl⟩ := h
    simp

theorem wf_rot_left (g : Grid) : Grid.wf (rot_left g) :=
  wf_reverse_cols _ (wf_transpose g)

theorem wf_rot_right (g : Grid) : Grid.wf (rot_right g) :=
  wf_reverse_rows _ (wf_transpose g)

theorem reverse_rows_involutive (g : Grid) : reverse_rows (reverse_rows g) = g := by
  simp [reverse_rows, List.map_map, Function.comp_def]

theorem rot_left_rot_right (g : Grid) (hw : Grid.wf g) : rot_left (rot_right g) = g := by
  obtain ⟨a0, a1, a2, a3, b0, b1, b2, b3, c0, c1, c2, c3, d0, d1, d2, d3, rfl⟩ :=
    grid_eta16 g hw
  rfl

theorem rot_right_rot_left (g : Grid) (hw : Grid.wf g) : rot_right (rot_left g) = g := by
  obtain ⟨a0, a1, a2, a3, b0, b1, b2, b3, c0, c1, c2, c3, d0, d1, d2, d3, rfl⟩ :=
    grid_eta16 g hw
  rfl

theorem gridSum_reverse_rows (g : Grid) : gridSum (reverse_rows g) = gridSum g := by
  simp [gridSum, reverse_rows, List.map_map, Function.comp_def, List.sum_reverse]

theorem gridSum_reverse_cols (g : Grid) : gridSum (reverse_cols g) = gridSum g := by
  simp [gridSum, reverse_cols, List.map_reverse, List.sum_reverse]

theorem gridSum_transpose (g : Grid) (hw : Grid.wf g) :
    gridSum (transpose g) = gridSum g := by
  obtain ⟨a0, a1, a2, a3, b0, b1, b2, b3, c0, c1, c2, c3, d0, d1, d2, d3, rfl⟩ :=
    grid_eta16 g hw
  simp [gridSum, transpose, GRID_SIZE, List.range_succ, gcell, rcell]
  ring

theorem gridSum_rot_left (g : Grid) (hw : Grid.wf g) :
    gridSum (rot_left g) = gridSum g := by
  rw [rot_left, gridSum_reverse_cols, gridSum_transpose g hw]

theorem gridSum_rot_right (g : Grid) (hw : Grid.wf g) :
    gridSum (rot_right g) = gridSum g := by
  rw [rot_right, gridSum_reverse_rows, gridSum_transpose g hw]

theorem cellPow2_nonneg (v : Int) (h : cellPow2 v) : 0 ≤ v := by
  rcases h with rfl | ⟨m, _, rfl⟩
  · exact le_refl 0
  · positivity

theorem rowNonneg_of_rowPow2 (row : List Int) (h : rowPow2 row) : rowNonneg row :=
  fun j => cellPow2_nonneg _ (h j)

theorem rowPow2_nil : rowPow2 [] := fun _ => Or.inl (by simp [rcell])

theorem rowPow2_reverse (row : List Int) (h : rowPow2 row) : rowPow2 row.reverse := by
  intro j
  by_cases hj : j < row.length
  · have e : rcell row.reverse j = rcell row (row.length - 1 - j) := by
      rw [rcell_eq_getElem?, rcell_eq_getElem?, List.getElem?_reverse (by simpa using hj)]
    rw [e]
    exact h _
  · rw [rcell_oob _ _ (by simp; omega)]
    exact Or.inl rfl

theorem gridPow2_iff_mem (g : Grid) : gridPow2 g ↔ ∀ row ∈ g, rowPow2 row := by
  constructor
  · intro h row hmem
    obtain ⟨i, hi, rfl⟩ := List.mem_iff_getElem.mp hmem
    have h2 := h i
    rwa [List.getD_eq_getElem?_getD, List.getElem?_eq_getElem hi] at h2
  · intro h r
    by_cases hr : r < g.length
    · have e : g.getD r [] = g[r] := by
        rw [List.getD_eq_getElem?_getD, List.getElem?_eq_getElem hr]
        rfl
      rw [e]
      exact h _ (List.getElem_mem hr)
    · rw [List.getD_eq_getElem?_getD, List.getElem?_eq_none (by omega)]
      exact rowPow2_nil

theorem gridPow2_reverse_rows (g : Grid) (h : gridPow2 g) :
    gridPow2 (reverse_rows g) := by
  rw [gridPow2_iff_mem] at h ⊢
  intro row hmem
  simp only [reverse_rows, List.mem_map] at hmem
  obtain ⟨row0, hmem0, rfl⟩ := hmem
  exact rowPow2_reverse _ (h row0 hmem0)

theorem gridPow2_reverse_cols (g : Grid) (h : gridPow2 g) :
    gridPow2 (reverse_cols g) := by
  rw [gridPow2_iff_mem] at h ⊢
  intro row hmem
  exact h row (by simpa [reverse_cols] using hmem)

theorem gridPow2_transpose (g : Grid) (h : gridPow2 g) : gridPow2 (transpose g) := by
  intro r
  by_cases hr : r < GRID_SIZE
  · have e : (transpose g).getD r [] = (List.range GRID_SIZE).map fun j => gcell g j r := by
      simp [transpose, getD_range_map, hr]
    rw [e]
    intro c
    by_cases hc : c < GRID_SIZE
    · have e2 : rcell ((List.range GRID_SIZE).map fun j => gcell g j r) c = gcell g c r := by
        simp [rcell, getD_range_map, hc]
      rw [e2]
      exact (h c) r
    · rw [show rcell ((List.range GRID_SIZE).map fun j => gcell g j r) c = 0 by
        rw [rcell, getD_range_map]
        simp [hc]]
      exact Or.inl rfl
  · rw [show (transpose g).getD r [] = [] by
      rw [transpose, getD_range_map]
      simp [hr]]
    exact rowPow2_nil

theorem gridPow2_rot_left (g : Grid) (h : gridPow2 g) : gridPow2 (rot_left g) :=
  gridPow2_reverse_cols _ (gridPow2_transpose g h)

theorem gridPow2_rot_right (g : Grid) (h : gridPow2 g) : gridPow2 (rot_right g) :=
  gridPow2_reverse_rows _ (gridPow2_transpose g h)

/-! ## Claim C1: sums and the score delta of a shift -/

theorem scanRow_length (r : Nat) (fuel : Nat) :
    ∀ (cells : List Int) (p k : Nat) (delta : Int) (changed : Bool)
      (anims : List AnimRec) (bg : List Int),
      (scanRow r fuel cells p k delta changed anims bg).cells.length = cells.length := by
  induction fuel with
  | zero => intro cells p k delta changed anims bg; rfl
  | succ fuel ih =>
    intro cells p k delta changed anims bg
    simp only [scanRow]
    split_ifs <;> simp [ih]

theorem wf_row_len (g : Grid) (hw : Grid.wf g) (r : Nat) (hr : r < GRID_SIZE) :
    (g.getD r []).length = 4 := by
  have hrl : r < g.length := by
    rw [hw.1]
    exact hr
  have e : g.getD r [] = g[r] := by
    rw [List.getD_eq_getElem?_getD, List.getElem?_eq_getElem hrl]
    rfl
  rw [e]
  simpa [GRID_SIZE] using hw.2 _ (List.getElem_mem hrl)

theorem shiftRowFull_main (r : Nat) (cells : List Int) (hlen : cells.length = 4)
    (hnn : rowNonneg cells) :
    (shiftRowFull r cells).cells.sum = cells.sum ∧
    rowCompacted (shiftRowFull r cells).cells ∧
    rowNonneg (shiftRowFull r cells).cells ∧
    (shiftRowFull r cells).cells.length = 4 :=
  scanRow_main r GRID_SIZE cells 0 1 0 false [] cells hlen (by omega) (by decide) hnn
    (fun j h1 h2 => absurd h2 (by omega))
    (fun j h1 => absurd h1 (by omega))

theorem shiftRowFull_delta (r : Nat) (cells : List Int) (hlen : cells.length = 4)
    (hpw : rowPow2 cells) :
    0 ≤ (shiftRowFull r cells).delta ∧ (4 : Int) ∣ (shiftRowFull r cells).delta := by
  obtain ⟨d, hd, hdn, hdd⟩ :=
    scanRow_delta r GRID_SIZE cells 0 1 0 false [] cells hlen (by omega) hpw
  simp only [shiftRowFull]
  rw [hd]
  constructor
  · omega
  · simpa using hdd

theorem gridSum_eq_range (g : Grid) (hw : Grid.wf g) :
    gridSum g = ((List.range GRID_SIZE).map fun r => (g.getD r []).sum).sum := by
  obtain ⟨r0, r1, r2, r3, rfl, _, _, _, _⟩ := grid_eta g hw
  rfl

theorem sgl_wf (g : Grid) (hw : Grid.wf g) : Grid.wf (shift_grid_left g).grid := by
  rw [sgl_grid]
  constructor
  · simp
  · intro row h
    simp only [List.mem_map, List.mem_range] at h
    obtain ⟨r, hr, rfl⟩ := h
    show (scanRow r GRID_SIZE _ 0 1 0 false [] _).cells.length = GRID_SIZE
    rw [scanRow_length, wf_row_len g hw r hr]
    rfl

theorem sgl_sum (g : Grid) (hw : Grid.wf g) (hnn : ∀ r, rowNonneg (g.getD r [])) :
    gridSum (shift_grid_left g).grid = gridSum g := by
  rw [sgl_grid, gridSum, List.map_map, gridSum_eq_range g hw]
  congr 1
  apply List.map_congr_left
  intro r hr
  exact (shiftRowFull_main r (g.getD r [])
    (wf_row_len g hw r (by simpa using hr)) (hnn r)).1

theorem sgl_delta_props (g : Grid) (hw : Grid.wf g) (hpw : gridPow2 g) :
    0 ≤ (shift_grid_left g).delta ∧ (4 : Int) ∣ (shift_grid_left g).delta := by
  rw [sgl_delta]
  constructor
  · apply List.sum_nonneg
    intro x hx
    simp only [List.mem_map, List.mem_range] at hx
    obtain ⟨r, hr, rfl⟩ := hx
    exact (shiftRowFull_delta r _ (wf_row_len g hw r hr) (hpw r)).1
  · apply List.dvd_sum
    intro x hx
    simp only [List.mem_map, List.mem_range] at hx
    obtain ⟨r, hr, rfl⟩ := hx
    exact (shiftRowFull_delta r _ (wf_row_len g hw r hr) (hpw r)).2

theorem sgl_core (g : Grid) (hw : Grid.wf g) (hpw : gridPow2 g) :
    gridSum (shift_grid_left g).grid = gridSum g ∧
    0 ≤ (shift_grid_left g).delta ∧ (4 : Int) ∣ (shift_grid_left g).delta :=
  ⟨sgl_sum g hw (fun r => rowNonneg_of_rowPow2 _ (hpw r)), sgl_delta_props g hw hpw⟩

/-- C1 (amended): for every 4x4 grid whose nonzero tiles are powers of two,
one shift in any direction leaves the sum of all tile values unchanged
(merging two tiles of value v produces one tile 2v, so the score delta is
not added to the sum), and the reported score delta is nonnegative and a
multiple of 4 — a sum of merged tile values, each a power of two at least
4, but not in general itself a power of two. -/
theorem shift_sum_and_delta (g : Grid) (pool : List animated_block_t)
    (hw : Grid.wf g) (hpw : gridPow2 g) :
    (gridSum (shift_left g pool).grid = gridSum g ∧
      0 ≤ (shift_left g pool).delta ∧ (4 : Int) ∣ (shift_left g pool).delta) ∧
    (gridSum (shift_right g pool).grid = gridSum g ∧
      0 ≤ (shift_right g pool).delta ∧ (4 : Int) ∣ (shift_right g pool).delta) ∧
    (gridSum (shift_down g pool).grid = gridSum g ∧
      0 ≤ (shift_down g pool).delta ∧ (4 : Int) ∣ (shift_down g pool).delta) ∧
    (gridSum (shift_up g pool).grid = gridSum g ∧
      0 ≤ (shift_up g pool).delta ∧ (4 : Int) ∣ (shift_up g pool).delta) := by
  refine ⟨?_, ?_, ?_, ?_⟩
  · obtain ⟨hg, hd, -⟩ := shift_left_proj g pool
    rw [hg, hd]
    exact sgl_core g hw hpw
  · obtain ⟨hg, hd, -⟩ := shift_right_proj g pool
    rw [hg, hd]
    obtain ⟨hs, hdp⟩ := sgl_core (reverse_rows g) (wf_reverse_rows g hw)
      (gridPow2_reverse_rows g hpw)
    exact ⟨by rw [gridSum_reverse_rows, hs, gridSum_reverse_rows], hdp⟩
  · obtain ⟨hg, hd, -⟩ := shift_down_proj g pool
    rw [hg, hd]
    obtain ⟨hs, hdp⟩ := sgl_core (rot_right g) (wf_rot_right g)
      (gridPow2_rot_right g hpw)
    refine ⟨?_, hdp⟩
    rw [gridSum_rot_left _ (sgl_wf _ (wf_rot_right g)), hs, gridSum_rot_right g hw]
  · obtain ⟨hg, hd, -⟩ := shift_up_proj g pool
    rw [hg, hd]
    obtain ⟨hs, hdp⟩ := sgl_core (rot_left g) (wf_rot_left g)
      (gridPow2_rot_left g hpw)
    refine ⟨?_, hdp⟩
    rw [gridSum_rot_right _ (sgl_wf _ (wf_rot_left g)), hs, gridSum_rot_left g hw]

theorem cellPow2_zero : cellPow2 0 := Or.inl rfl

theorem cellPow2_two : cellPow2 2 := Or.inr ⟨1, le_refl 1, by norm_num⟩

theorem cellPow2_four : cellPow2 4 := Or.inr ⟨2, by norm_num, by norm_num⟩

theorem rowPow2_mk (a b c d : Int) (ha : cellPow2 a) (hb : cellPow2 b)
    (hc : cellPow2 c) (hd : cellPow2 d) : rowPow2 [a, b, c, d] := by
  intro j
  match j with
  | 0 => exact ha
  | 1 => exact hb
  | 2 => exact hc
  | 3 => exact hd
  | n + 4 =>
    rw [rcell_oob _ _ (by simp)]
    exact Or.inl rfl

theorem gridPow2_mk (r0 r1 r2 r3 : List Int) (h0 : rowPow2 r0) (h1 : rowPow2 r1)
    (h2 : rowPow2 r2) (h3 : rowPow2 r3) : gridPow2 [r0, r1, r2, r3] := by
  intro r
  match r with
  | 0 => exact h0
  | 1 => exact h1
  | 2 => exact h2
  | 3 => exact h3
  | n + 4 => exact rowPow2_nil

/-- Witness for the sum/delta claim at a concrete grid with two merges. -/
theorem shift_sum_and_delta_witness :
    (gridSum (shift_left [[2, 2, 0, 0], [0, 0, 0, 0], [4, 0, 0, 4], [0, 0, 0, 0]] []).grid =
        gridSum [[2, 2, 0, 0], [0, 0, 0, 0], [4, 0, 0, 4], [0, 0, 0, 0]] ∧
      0 ≤ (shift_left [[2, 2, 0, 0], [0, 0, 0, 0], [4, 0, 0, 4], [0, 0, 0, 0]] []).delta ∧
      (4 : Int) ∣ (shift_left [[2, 2, 0, 0], [0, 0, 0, 0], [4, 0, 0, 4], [0, 0, 0, 0]] []).delta) ∧
    (gridSum (shift_right [[2, 2, 0, 0], [0, 0, 0, 0], [4, 0, 0, 4], [0, 0, 0, 0]] []).grid =
        gridSum [[2, 2, 0, 0], [0, 0, 0, 0], [4, 0, 0, 4], [0, 0, 0, 0]] ∧
      0 ≤ (shift_right [[2, 2, 0, 0], [0, 0, 0, 0], [4, 0, 0, 4], [0, 0, 0, 0]] []).delta ∧
      (4 : Int) ∣ (shift_right [[2, 2, 0, 0], [0, 0, 0, 0], [4, 0, 0, 4], [0, 0, 0, 0]] []).delta) ∧
    (gridSum (shift_down [[2, 2, 0, 0], [0, 0, 0, 0], [4, 0, 0, 4], [0, 0, 0, 0]] []).grid =
        gridSum [[2, 2, 0, 0], [0, 0, 0, 0], [4, 0, 0, 4], [0, 0, 0, 0]] ∧
      0 ≤ (shift_down [[2, 2, 0, 0], [0, 0, 0, 0], [4, 0, 0, 4], [0, 0, 0, 0]] []).delta ∧
      (4 : Int) ∣ (shift_down [[2, 2, 0, 0], [0, 0, 0, 0], [4, 0, 0, 4], [0, 0, 0, 0]] []).delta) ∧
    (gridSum (shift_up [[2, 2, 0, 0], [0, 0, 0, 0], [4, 0, 0, 4], [0, 0, 0, 0]] []).grid =
        gridSum [[2, 2, 0, 0], [0, 0, 0, 0], [4, 0, 0, 4], [0, 0, 0, 0]] ∧
      0 ≤ (shift_up [[2, 2, 0, 0], [0, 0, 0, 0], [4, 0, 0, 4], [0, 0, 0, 0]] []).delta ∧
      (4 : Int) ∣ (shift_up [[2, 2, 0, 0], [0, 0, 0, 0], [4, 0, 0, 4], [0, 0, 0, 0]] []).delta) :=
  shift_sum_and_delta [[2, 2, 0, 0], [0, 0, 0, 0], [4, 0, 0, 4], [0, 0, 0, 0]] []
    (by decide)
    (gridPow2_mk _ _ _ _
      (rowPow2_mk _ _ _ _ cellPow2_two cellPow2_two cellPow2_zero cellPow2_zero)
      (rowPow2_mk _ _ _ _ cellPow2_zero cellPow2_zero cellPow2_zero cellPow2_zero)
      (rowPow2_mk _ _ _ _ cellPow2_four cellPow2_zero cellPow2_zero cellPow2_four)
      (rowPow2_mk _ _ _ _ cellPow2_zero cellPow2_zero cellPow2_zero cellPow2_zero))

/-- Counterexample to C1 as stated: shifting the grid whose first row is
[2,2,4,4] left changes the sum by 0, not by the reported delta 12, and 12
is not a power of two. -/
theorem shift_sum_and_delta_counterexample :
    gridSum (shift_left [[2, 2, 4, 4], [0, 0, 0, 0], [0, 0, 0, 0], [0, 0, 0, 0]] []).grid ≠
      gridSum [[2, 2, 4, 4], [0, 0, 0, 0], [0, 0, 0, 0], [0, 0, 0, 0]] +
        (shift_left [[2, 2, 4, 4], [0, 0, 0, 0], [0, 0, 0, 0], [0, 0, 0, 0]] []).delta ∧
    (shift_left [[2, 2, 4, 4], [0, 0, 0, 0], [0, 0, 0, 0], [0, 0, 0, 0]] []).delta = 12 ∧
    (∀ m : Nat, (2 : Int) ^ m ≠ 12) := by
  refine ⟨by decide, by decide, ?_⟩
  intro m
  by_cases hm : m ≤ 3
  · interval_cases m <;> decide
  · intro heq
    have h16 : (2 : Int) ^ 4 ≤ 2 ^ m := by
      apply pow_le_pow_right₀ (by norm_num)
      omega
    rw [heq] at h16
    norm_num at h16

/-! ## Claim C2: a second shift-left application -/

/-- When every row of the grid is compacted and nonnegative with no two
adjacent equal nonzero tiles, shift_grid_left reports no change and leaves
the grid untouched. -/
theorem sgl_noop (g : Grid) (hw : Grid.wf g)
    (h : ∀ r, r < GRID_SIZE →
      rowCompacted (g.getD r []) ∧ rowNonneg (g.getD r []) ∧ rowNoAdjEq (g.getD r [])) :
    (shift_grid_left g).changed = false ∧ (shift_grid_left g).grid = g := by
  have hrows : ∀ r ∈ List.range GRID_SIZE,
      shiftRowFull r (g.getD r []) = ⟨g.getD r [], 0, false, [], g.getD r []⟩ := by
    intro r hr
    have hr4 : r < GRID_SIZE := by simpa using hr
    obtain ⟨hcomp, hnn, hna⟩ := h r hr4
    exact scanRow_noop r GRID_SIZE _ 0 1 0 false [] _
      (wf_row_len g hw r hr4) (by omega) hnn hcomp hna (Or.inl rfl)
  constructor
  · rw [sgl_changed, List.any_eq_false]
    intro r hr
    rw [hrows r hr]
    simp
  · rw [sgl_grid, List.map_congr_left (fun r hr => by rw [hrows r hr])]
    exact map_getD_range g hw

/-- Row r of the result of shift_grid_left is the scan of row r. -/
theorem sgl_row_eq (g : Grid) (r : Nat) (hr : r < GRID_SIZE) :
    (shift_grid_left g).grid.getD r [] = (shiftRowFull r (g.getD r [])).cells := by
  rw [sgl_grid, getD_range_map]
  simp [hr]

/-- C2 (amended): shift-left applied twice in a row is not idempotent in
general; but whenever the first application's result contains no row with
two adjacent equal nonzero tiles, the second application reports
changed == false and leaves the grid unchanged. -/
theorem shift_left_twice (g : Grid) (hw : Grid.wf g)
    (hnn : ∀ r, rowNonneg (g.getD r []))
    (hna : ∀ r, r < GRID_SIZE → rowNoAdjEq ((shift_grid_left g).grid.getD r [])) :
    (shift_grid_left ((shift_grid_left g).grid)).changed = false ∧
    (shift_grid_left ((shift_grid_left g).grid)).grid = (shift_grid_left g).grid := by
  apply sgl_noop _ (sgl_wf g hw)
  intro r hr
  refine ⟨?_, ?_, hna r hr⟩ <;> rw [sgl_row_eq g r hr]
  · exact (shiftRowFull_main r (g.getD r []) (wf_row_len g hw r hr) (hnn r)).2.1
  · exact (shiftRowFull_main r (g.getD r []) (wf_row_len g hw r hr) (hnn r)).2.2.1

theorem rowNonneg_nil : rowNonneg [] := fun _ => by simp [rcell]

theorem rowNonneg_mk (a b c d : Int) (h0 : 0 ≤ a) (h1 : 0 ≤ b) (h2 : 0 ≤ c)
    (h3 : 0 ≤ d) : rowNonneg [a, b, c, d] := by
  intro j
  match j with
  | 0 => exact h0
  | 1 => exact h1
  | 2 => exact h2
  | 3 => exact h3
  | n + 4 => rw [rcell_oob _ _ (by simp)]

/-- Witness for the second-application claim: a grid whose shifted image
has no mergeable pair. -/
theorem shift_left_twice_witness :
    (shift_grid_left ((shift_grid_left
        [[0, 2, 4, 0], [0, 0, 0, 0], [8, 0, 0, 2], [0, 0, 0, 0]]).grid)).changed = false ∧
    (shift_grid_left ((shift_grid_left
        [[0, 2, 4, 0], [0, 0, 0, 0], [8, 0, 0, 2], [0, 0, 0, 0]]).grid)).grid =
      (shift_grid_left [[0, 2, 4, 0], [0, 0, 0, 0], [8, 0, 0, 2], [0, 0, 0, 0]]).grid :=
  shift_left_twice [[0, 2, 4, 0], [0, 0, 0, 0], [8, 0, 0, 2], [0, 0, 0, 0]]
    (by decide)
    (by
      intro r
      match r with
      | 0 => exact rowNonneg_mk _ _ _ _ (by norm_num) (by norm_num) (by norm_num) (by norm_num)
      | 1 => exact rowNonneg_mk _ _ _ _ (by norm_num) (by norm_num) (by norm_num) (by norm_num)
      | 2 => exact rowNonneg_mk _ _ _ _ (by norm_num) (by norm_num) (by norm_num) (by norm_num)
      | 3 => exact rowNonneg_mk _ _ _ _ (by norm_num) (by norm_num) (by norm_num) (by norm_num)
      | n + 4 => exact rowNonneg_nil)
    (by decide)

/-- Counterexample to C2 as stated: on the grid whose first row is
[4,2,2,0] the first shift merges the 2s next to the 4, producing [4,4,0,0],
and the second application reports changed == true again. -/
theorem shift_left_twice_counterexample :
    (shift_grid_left [[4, 2, 2, 0], [0, 0, 0, 0], [0, 0, 0, 0], [0, 0, 0, 0]]).grid =
      [[4, 4, 0, 0], [0, 0, 0, 0], [0, 0, 0, 0], [0, 0, 0, 0]] ∧
    (shift_grid_left ((shift_grid_left
        [[4, 2, 2, 0], [0, 0, 0, 0], [0, 0, 0, 0], [0, 0, 0, 0]]).grid)).changed = true ∧
    (shift_grid_left ((shift_grid_left
        [[4, 2, 2, 0], [0, 0, 0, 0], [0, 0, 0, 0], [0, 0, 0, 0]]).grid)).grid =
      [[8, 0, 0, 0], [0, 0, 0, 0], [0, 0, 0, 0], [0, 0, 0, 0]] := by
  refine ⟨by decide, by decide, by decide⟩

/-! ## Claim C8: an unchanged shift has no side effects -/

/-- C8: starting from an all-dead animation pool, each of the four shift
functions, when it reports changed == false, leaves the tile grid exactly
as it was and every pool slot still dead (no motion descriptor recorded). -/
theorem shift_unchanged_no_effects (g : Grid) (pool : List animated_block_t)
    (hw : Grid.wf g) (hd : ∀ b ∈ pool, b.state = ANI_BLOCK_DEAD) :
    ((shift_left g pool).changed = false →
      (shift_left g pool).grid = g ∧
      ∀ b ∈ (shift_left g pool).pool, b.state = ANI_BLOCK_DEAD) ∧
    ((shift_right g pool).changed = false →
      (shift_right g pool).grid = g ∧
      ∀ b ∈ (shift_right g pool).pool, b.state = ANI_BLOCK_DEAD) ∧
    ((shift_down g pool).changed = false →
      (shift_down g pool).grid = g ∧
      ∀ b ∈ (shift_down g pool).pool, b.state = ANI_BLOCK_DEAD) ∧
    ((shift_up g pool).changed = false →
      (shift_up g pool).grid = g ∧
      ∀ b ∈ (shift_up g pool).pool, b.state = ANI_BLOCK_DEAD) := by
  refine ⟨?_, ?_, ?_, ?_⟩
  · intro h
    have hch : (shift_grid_left g).changed = false := by
      rw [← (shift_left_proj g pool).2.2]
      exact h
    obtain ⟨hgr, han⟩ := sgl_unchanged g hw hch
    have hpool : (shift_left g pool).pool = pool := by
      simp only [shift_left, hch, Bool.false_eq_true, if_false, han, applyAnims_nil]
    refine ⟨?_, by rw [hpool]; exact hd⟩
    rw [(shift_left_proj g pool).1, hgr]
  · intro h
    have hch : (shift_grid_left (reverse_rows g)).changed = false := by
      rw [← (shift_right_proj g pool).2.2]
      exact h
    obtain ⟨hgr, han⟩ := sgl_unchanged (reverse_rows g) (wf_reverse_rows g hw) hch
    have hpool : (shift_right g pool).pool = pool := by
      simp only [shift_right, hch, Bool.false_eq_true, if_false, han, applyAnims_nil]
    refine ⟨?_, by rw [hpool]; exact hd⟩
    rw [(shift_right_proj g pool).1, hgr, reverse_rows_involutive]
  · intro h
    have hch : (shift_grid_left (rot_right g)).changed = false := by
      rw [← (shift_down_proj g pool).2.2]
      exact h
    obtain ⟨hgr, han⟩ := sgl_unchanged (rot_right g) (wf_rot_right g) hch
    have hpool : (shift_down g pool).pool = pool := by
      simp only [shift_down, hch, Bool.false_eq_true, if_false, han, applyAnims_nil]
    refine ⟨?_, by rw [hpool]; exact hd⟩
    rw [(shift_down_proj g pool).1, hgr, rot_left_rot_right g hw]
  · intro h
    have hch : (shift_grid_left (rot_left g)).changed = false := by
      rw [← (shift_up_proj g pool).2.2]
      exact h
    obtain ⟨hgr, han⟩ := sgl_unchanged (rot_left g) (wf_rot_left g) hch
    have hpool : (shift_up g pool).pool = pool := by
      simp only [shift_up, hch, Bool.false_eq_true, if_false, han, applyAnims_nil]
    refine ⟨?_, by rw [hpool]; exact hd⟩
    rw [(shift_up_proj g pool).1, hgr, rot_right_rot_left g hw]

/-- Witness for the no-effect claim: the fully-compacted distinct grid
cannot move in any direction. -/
theorem shift_unchanged_no_effects_witness :
    ((shift_left [[2, 4, 8, 16], [32, 64, 128, 256], [512, 1024, 2048, 4096],
        [8192, 16384, 32768, 65536]]
        [⟨0, 0, 0, 0, 0, 0, ANI_BLOCK_DEAD⟩]).changed = false →
      (shift_left [[2, 4, 8, 16], [32, 64, 128, 256], [512, 1024, 2048, 4096],
        [8192, 16384, 32768, 65536]]
        [⟨0, 0, 0, 0, 0, 0, ANI_BLOCK_DEAD⟩]).grid =
        [[2, 4, 8, 16], [32, 64, 128, 256], [512, 1024, 2048, 4096],
          [8192, 16384, 32768, 65536]] ∧
      ∀ b ∈ (shift_left [[2, 4, 8, 16], [32, 64, 128, 256], [512, 1024, 2048, 4096],
        [8192, 16384, 32768, 65536]]
        [⟨0, 0, 0, 0, 0, 0, ANI_BLOCK_DEAD⟩]).pool, b.state = ANI_BLOCK_DEAD) ∧
    ((shift_right [[2, 4, 8, 16], [32, 64, 128, 256], [512, 1024, 2048, 4096],
        [8192, 16384, 32768, 65536]]
        [⟨0, 0, 0, 0, 0, 0, ANI_BLOCK_DEAD⟩]).changed = false →
      (shift_right [[2, 4, 8, 16], [32, 64, 128, 256], [512, 1024, 2048, 4096],
        [8192, 16384, 32768, 65536]]
        [⟨0, 0, 0, 0, 0, 0, ANI_BLOCK_DEAD⟩]).grid =
        [[2, 4, 8, 16], [32, 64, 128, 256], [512, 1024, 2048, 4096],
          [8192, 16384, 32768, 65536]] ∧
      ∀ b ∈ (shift_right [[2, 4, 8, 16], [32, 64, 128, 256], [512, 1024, 2048, 4096],
        [8192, 16384, 32768, 65536]]
        [⟨0, 0, 0, 0, 0, 0, ANI_BLOCK_DEAD⟩]).pool, b.state = ANI_BLOCK_DEAD) ∧
    ((shift_down [[2, 4, 8, 16], [32, 64, 128, 256], [512, 1024, 2048, 4096],
        [8192, 16384, 32768, 65536]]
        [⟨0, 0, 0, 0, 0, 0, ANI_BLOCK_DEAD⟩]).changed = false →
      (shift_down [[2, 4, 8, 16], [32, 64, 128, 256], [512, 1024, 2048, 4096],
        [8192, 16384, 32768, 65536]]
        [⟨0, 0, 0, 0, 0, 0, ANI_BLOCK_DEAD⟩]).grid =
        [[2, 4, 8, 16], [32, 64, 128, 256], [512, 1024, 2048, 4096],
          [8192, 16384, 32768, 65536]] ∧
      ∀ b ∈ (shift_down [[2, 4, 8, 16], [32, 64, 128, 256], [512, 1024, 2048, 4096],
        [8192, 16384, 32768, 65536]]
        [⟨0, 0, 0, 0, 0, 0, ANI_BLOCK_DEAD⟩]).pool, b.state = ANI_BLOCK_DEAD) ∧
    ((shift_up [[2, 4, 8, 16], [32, 64, 128, 256], [512, 1024, 2048, 4096],
        [8192, 16384, 32768, 65536]]
        [⟨0, 0, 0, 0, 0, 0, ANI_BLOCK_DEAD⟩]).changed = false →
      (shift_up [[2, 4, 8, 16], [32, 64, 128, 256], [512, 1024, 2048, 4096],
        [8192, 16384, 32768, 65536]]
        [⟨0, 0, 0, 0, 0, 0, ANI_BLOCK_DEAD⟩]).grid =
        [[2, 4, 8, 16], [32, 64, 128, 256], [512, 1024, 2048, 4096],
          [8192, 16384, 32768, 65536]] ∧
      ∀ b ∈ (shift_up [[2, 4, 8, 16], [32, 64, 128, 256], [512, 1024, 2048, 4096],
        [8192, 16384, 32768, 65536]]
        [⟨0, 0, 0, 0, 0, 0, ANI_BLOCK_DEAD⟩]).pool, b.state = ANI_BLOCK_DEAD) :=
  shift_unchanged_no_effects
    [[2, 4, 8, 16], [32, 64, 128, 256], [512, 1024, 2048, 4096],
      [8192, 16384, 32768, 65536]]
    [⟨0, 0, 0, 0, 0, 0, ANI_BLOCK_DEAD⟩]
    (by decide) (by decide)

/-! ## Claim C7: grid accesses performed by shift_grid_left -/

theorem getD_indep (l : List Int) (i : Nat) (a b : Int) (h : i < l.length) :
    l.getD i a = l.getD i b := by
  rw [List.getD_eq_getElem?_getD, List.getD_eq_getElem?_getD,
    List.getElem?_eq_getElem h]
  rfl

/-- Membership in an extended trace splits into the old trace and the new
events. -/
theorem traceP_append (trace new : List TraceEv)
    (htr : ∀ e ∈ trace, (e.row < GRID_SIZE ∧ e.col ≤ GRID_SIZE) ∧
      (e.wr = true → e.col < GRID_SIZE))
    (hnew : ∀ e ∈ new, (e.row < GRID_SIZE ∧ e.col ≤ GRID_SIZE) ∧
      (e.wr = true → e.col < GRID_SIZE)) :
    ∀ e ∈ trace ++ new, (e.row < GRID_SIZE ∧ e.col ≤ GRID_SIZE) ∧
      (e.wr = true → e.col < GRID_SIZE) := by
  intro e he
  rcases List.mem_append.mp he with h | h
  · exact htr e h
  · exact hnew e h

/-- Every event the instrumented row loop appends to the trace has its row
inside the grid, a column at most GRID_SIZE, and — when it is a write — a
column strictly inside the row. -/
theorem scanRowT_bounds (r : Nat) (junk : Int) (fuel : Nat) :
    ∀ (cells : List Int) (p k : Nat) (prev_val cur_val : Int) (changed : Bool)
      (trace : List TraceEv),
      p < k → r < GRID_SIZE →
      (∀ e ∈ trace, (e.row < GRID_SIZE ∧ e.col ≤ GRID_SIZE) ∧
        (e.wr = true → e.col < GRID_SIZE)) →
      ∀ e ∈ (scanRowT r junk fuel cells p k prev_val cur_val changed trace).2.2,
        (e.row < GRID_SIZE ∧ e.col ≤ GRID_SIZE) ∧ (e.wr = true → e.col < GRID_SIZE) := by
  induction fuel with
  | zero =>
    intro cells p k prev_val cur_val changed trace hpk hr htr
    exact htr
  | succ fuel ih =>
    intro cells p k prev_val cur_val changed trace hpk hr htr
    simp only [scanRowT]
    split_ifs with hk hcv hpv heq hadj
    all_goals try
      have hk4 : k < 4 := by simpa [GRID_SIZE] using hk
    all_goals try
      have hr4 : r < 4 := by simpa [GRID_SIZE] using hr
    · refine ih _ (p + 1) (k + 1) _ _ _ _ (by omega) hr
        (traceP_append _ _ (traceP_append _ _ htr ?_) ?_) <;>
        (intro e he
         simp only [List.mem_cons, List.not_mem_nil, or_false] at he) <;>
        first
          | (rcases he with rfl | rfl | rfl <;>
              exact ⟨⟨by simpa [GRID_SIZE], by simp [GRID_SIZE]; omega⟩,
                fun _ => by simp [GRID_SIZE]; omega⟩)
          | (rcases he with rfl <;>
              exact ⟨⟨by simpa [GRID_SIZE], by simp [GRID_SIZE]; omega⟩,
                fun hww => by simp at hww⟩)
    · refine ih _ (p + 1) (k + 1) _ _ _ _ (by omega) hr
        (traceP_append _ _ (traceP_append _ _ htr ?_) ?_) <;>
        (intro e he
         simp only [List.mem_cons, List.not_mem_nil, or_false] at he) <;>
        first
          | (rcases he with rfl | rfl | rfl <;>
              exact ⟨⟨by simpa [GRID_SIZE], by simp [GRID_SIZE]; omega⟩,
                fun _ => by simp [GRID_SIZE]; omega⟩)
          | (rcases he with rfl <;>
              exact ⟨⟨by simpa [GRID_SIZE], by simp [GRID_SIZE]; omega⟩,
                fun hww => by simp at hww⟩)
    · refine ih _ (p + 1) (k + 1) _ _ _ _ (by omega) hr
        (traceP_append _ _ htr ?_)
      intro e he
      simp only [List.mem_cons, List.not_mem_nil, or_false] at he
      rcases he with rfl | rfl <;>
        exact ⟨⟨by simpa [GRID_SIZE], by simp [GRID_SIZE]; omega⟩,
          fun hww => by simp at hww⟩
    · refine ih _ p (k + 1) _ _ _ _ (by omega) hr
        (traceP_append _ _ (traceP_append _ _ htr ?_) ?_) <;>
        (intro e he
         simp only [List.mem_cons, List.not_mem_nil, or_false] at he) <;>
        first
          | (rcases he with rfl | rfl <;>
              exact ⟨⟨by simpa [GRID_SIZE], by simp [GRID_SIZE]; omega⟩,
                fun _ => by simp [GRID_SIZE]; omega⟩)
          | (rcases he with rfl <;>
              exact ⟨⟨by simpa [GRID_SIZE], by simp [GRID_SIZE]; omega⟩,
                fun hww => by simp at hww⟩)
    · refine ih _ p (k + 1) _ _ _ _ (by omega) hr
        (traceP_append _ _ htr ?_)
      intro e he
      simp only [List.mem_cons, List.not_mem_nil, or_false] at he
      rcases he with rfl <;>
        exact ⟨⟨by simpa [GRID_SIZE], by simp [GRID_SIZE]; omega⟩,
          fun hww => by simp at hww⟩
    · exact htr

/-- The result of the instrumented row loop does not depend on the value
returned for the out-of-row read-ahead: only in-bounds cells feed back
into the computation. -/
theorem scanRowT_junk (r : Nat) (fuel : Nat) :
    ∀ (j1 j2 : Int) (cells : List Int) (p k : Nat) (pv cv1 cv2 : Int)
      (changed : Bool) (trace : List TraceEv),
      cells.length = 4 → p < k →
      (k < GRID_SIZE → cv1 = cv2) →
      scanRowT r j1 fuel cells p k pv cv1 changed trace =
        scanRowT r j2 fuel cells p k pv cv2 changed trace := by
  induction fuel with
  | zero => intro j1 j2 cells p k pv cv1 cv2 changed trace _ _ _; rfl
  | succ fuel ih =>
    intro j1 j2 cells p k pv cv1 cv2 changed trace hlen hpk hcveq
    by_cases hk : k < GRID_SIZE
    · have hk4 : k < 4 := by simpa [GRID_SIZE] using hk
      obtain rfl : cv1 = cv2 := hcveq hk
      simp only [scanRowT]
      split_ifs
      · rw [getD_indep ((cells.set p (cv1 * 2)).set k 0) (p + 1) j1 j2
          (by simp [hlen]; omega)]
        apply ih _ _ _ _ _ _ _ _ _ _ (by simp [hlen]) (by omega)
        intro hk1
        exact getD_indep _ _ _ _ (by simp [hlen, GRID_SIZE] at hk1 ⊢; omega)
      · rw [getD_indep ((cells.set (p + 1) cv1).set k 0) (p + 1) j1 j2
          (by simp [hlen]; omega)]
        apply ih _ _ _ _ _ _ _ _ _ _ (by simp [hlen]) (by omega)
        intro hk1
        exact getD_indep _ _ _ _ (by simp [hlen, GRID_SIZE] at hk1 ⊢; omega)
      · rw [getD_indep cells (p + 1) j1 j2 (by omega)]
        apply ih _ _ _ _ _ _ _ _ _ _ hlen (by omega)
        intro hk1
        exact getD_indep _ _ _ _ (by simp [GRID_SIZE] at hk1; omega)
      · apply ih _ _ _ _ _ _ _ _ _ _ (by simp [hlen]) (by omega)
        intro hk1
        exact getD_indep _ _ _ _ (by simp [hlen, GRID_SIZE] at hk1 ⊢; omega)
      · apply ih _ _ _ _ _ _ _ _ _ _ hlen (by omega)
        intro hk1
        exact getD_indep _ _ _ _ (by simp [GRID_SIZE] at hk1; omega)
    · simp only [scanRowT]
      rw [if_neg hk, if_neg hk]

/-- C7 (amended): during a shift, every write of `grid[row][col]` has row
and col inside [0, GRID_SIZE), and every read has row inside [0, GRID_SIZE)
and col at most GRID_SIZE; column GRID_SIZE is only ever read (the scan
pointer's final read-ahead), and the values of those out-of-row reads never
influence the result. -/
theorem shift_trace_props (g : Grid) (hw : Grid.wf g) (junk junk2 : Int) :
    (∀ e ∈ (shift_grid_leftT junk g).2,
      (e.row < GRID_SIZE ∧ e.col ≤ GRID_SIZE) ∧ (e.wr = true → e.col < GRID_SIZE)) ∧
    shift_grid_leftT junk g = shift_grid_leftT junk2 g := by
  constructor
  · intro e he
    simp only [shift_grid_leftT, List.map_map, Function.comp_def, List.mem_flatten,
      List.mem_map, List.mem_range] at he
    obtain ⟨l, ⟨r, hr, rfl⟩, hel⟩ := he
    refine scanRowT_bounds r junk GRID_SIZE _ 0 1 _ _ false _ (by omega) hr ?_ e hel
    intro ev hev
    simp only [List.mem_cons, List.not_mem_nil, or_false] at hev
    rcases hev with rfl | rfl <;>
      exact ⟨⟨by simpa [GRID_SIZE] using hr, by simp [GRID_SIZE]⟩,
        fun hww => by simp at hww⟩
  · simp only [shift_grid_leftT]
    have hres : ((List.range GRID_SIZE).map fun r =>
        scanRowT r junk GRID_SIZE (g.getD r []) 0 1 ((g.getD r []).getD 0 junk)
          ((g.getD r []).getD 1 junk) false
          [⟨false, r, 0⟩, ⟨false, r, 1⟩]) =
        ((List.range GRID_SIZE).map fun r =>
        scanRowT r junk2 GRID_SIZE (g.getD r []) 0 1 ((g.getD r []).getD 0 junk2)
          ((g.getD r []).getD 1 junk2) false
          [⟨false, r, 0⟩, ⟨false, r, 1⟩]) := by
      apply List.map_congr_left
      intro r hr
      have hlen := wf_row_len g hw r (by simpa using hr)
      rw [getD_indep (g.getD r []) 0 junk junk2 (by omega)]
      apply scanRowT_junk r GRID_SIZE junk junk2 _ 0 1 _ _ _ false _ hlen (by omega)
      intro _
      exact getD_indep _ _ _ _ (by omega)
    rw [hres]

/-- Witness for the access-bounds claim at the all-zero grid, comparing two
different junk values for the read-ahead. -/
theorem shift_trace_props_witness :
    (∀ e ∈ (shift_grid_leftT 0
        [[0, 0, 0, 0], [0, 0, 0, 0], [0, 0, 0, 0], [0, 0, 0, 0]]).2,
      (e.row < GRID_SIZE ∧ e.col ≤ GRID_SIZE) ∧ (e.wr = true → e.col < GRID_SIZE)) ∧
    shift_grid_leftT 0 [[0, 0, 0, 0], [0, 0, 0, 0], [0, 0, 0, 0], [0, 0, 0, 0]] =
      shift_grid_leftT 7 [[0, 0, 0, 0], [0, 0, 0, 0], [0, 0, 0, 0], [0, 0, 0, 0]] :=
  shift_trace_props [[0, 0, 0, 0], [0, 0, 0, 0], [0, 0, 0, 0], [0, 0, 0, 0]]
    (by decide) 0 7

/-- Counterexample to C7 as stated: already on the all-zero grid the scan
reads grid[0][4], whose column index is outside [0, GRID_SIZE). -/
theorem shift_trace_counterexample :
    TraceEv.mk false 0 4 ∈ (shift_grid_leftT 0
      [[0, 0, 0, 0], [0, 0, 0, 0], [0, 0, 0, 0], [0, 0, 0, 0]]).2 ∧
    ¬ ∀ e ∈ (shift_grid_leftT 0
      [[0, 0, 0, 0], [0, 0, 0, 0], [0, 0, 0, 0], [0, 0, 0, 0]]).2,
        e.col < GRID_SIZE :=
  ⟨by decide, by decide⟩

/-! ## Claim C9: the cursor stays inside the console -/

theorem cursorOk_retreat (c : console_t) (h : cursorOk c) :
    cursorOk (retreat_cursor c) := by
  obtain ⟨hr, hc⟩ := h
  unfold retreat_cursor
  split_ifs <;> exact ⟨by (try dsimp only); omega, by (try dsimp only); omega⟩

theorem cursorOk_scroll (c : console_t) (h : cursorOk c) :
    cursorOk (scroll_by_one c) := h

theorem cursorOk_newline (c : console_t) (h : cursorOk c) :
    cursorOk (newline c).1 := by
  obtain ⟨hr, hc⟩ := h
  unfold newline
  split_ifs with h1 <;> exact ⟨by (try dsimp only); omega, by (try dsimp only); omega⟩

theorem cursorOk_advance (c : console_t) (h : cursorOk c) :
    cursorOk (advance_cursor c).1 := by
  obtain ⟨hr, hc⟩ := h
  unfold advance_cursor
  split_ifs with h1 h2 <;> exact ⟨by (try dsimp only); omega, by (try dsimp only); omega⟩

theorem cursorOk_putbyte (c : console_t) (ch : Int) (h : cursorOk c) :
    cursorOk (console_putbyte c ch) := by
  unfold console_putbyte
  split_ifs with h8 h10 h13
  · exact cursorOk_retreat c h
  · rcases hsc : (newline c).2 with - | -
    · simp only [hsc, Bool.false_eq_true, if_false]
      exact cursorOk_newline c h
    · simp only [hsc, if_true]
      exact cursorOk_scroll _ (cursorOk_newline c h)
  · obtain ⟨hr, hc⟩ := h
    unfold carriage_return
    exact ⟨by (try dsimp only); omega, by (try dsimp only); omega⟩
  · rcases hsc : (advance_cursor { c with
        buffer := draw_char_at_addr c.buffer (get_cursor_addr c) ch c.term_color }).2
        with - | -
    · simp only [hsc, Bool.false_eq_true, if_false]
      exact cursorOk_advance _ h
    · simp only [hsc, if_true]
      exact cursorOk_scroll _ (cursorOk_advance _ h)

theorem cursorOk_putbytes_aux (s : List Int) :
    ∀ (l : List Nat) (c : console_t), cursorOk c →
      cursorOk (l.foldl (fun c2 i => console_putbyte c2 (s.getD i 0)) c) := by
  intro l
  induction l with
  | nil => intro c h; exact h
  | cons a t ih =>
    intro c h
    exact ih _ (cursorOk_putbyte _ _ h)

theorem cursorOk_putstr_aux :
    ∀ (l : List Int) (c : console_t), cursorOk c →
      cursorOk (l.foldl console_putbyte c) := by
  intro l
  induction l with
  | nil => intro c h; exact h
  | cons a t ih =>
    intro c h
    exact ih _ (cursorOk_putbyte _ _ h)

/-- C9: starting from a cursor inside `[0,height) x [0,width)`, every
public console operation that mutates the console (put_byte, put_bytes,
put_string, clear, set_cursor, draw_char) leaves the cursor inside
`[0,height) x [0,width)`; console_get is a pure read and does not touch
the console at all. -/
theorem console_ops_cursorOk (c : console_t) (h : cursorOk c) :
    (∀ ch : Int, cursorOk (console_putbyte c ch)) ∧
    (∀ (s : List Int) (len : Int), cursorOk (console_putbytes c s len)) ∧
    (∀ s : List Int, cursorOk (console_putstr c s)) ∧
    cursorOk (console_clear c) ∧
    (∀ row col : Int, cursorOk (console_set_cursor c row col).1) ∧
    (∀ row col ch color : Int, cursorOk (console_draw_char c row col ch color)) := by
  obtain ⟨hr, hc⟩ := h
  refine ⟨fun ch => cursorOk_putbyte c ch ⟨hr, hc⟩, ?_, ?_, ?_, ?_, ?_⟩
  · intro s len
    unfold console_putbytes
    split_ifs
    · exact ⟨hr, hc⟩
    · exact cursorOk_putbytes_aux s _ c ⟨hr, hc⟩
  · intro s
    exact cursorOk_putstr_aux _ c ⟨hr, hc⟩
  · unfold console_clear
    exact ⟨by (try dsimp only); omega, by (try dsimp only); omega⟩
  · intro row col
    unfold console_set_cursor
    split_ifs with hv
    · simp only [is_valid_index, decide_eq_true_eq] at hv
      exact ⟨by (try dsimp only); omega, by (try dsimp only); omega⟩
    · exact ⟨hr, hc⟩
  · intro row col ch color
    unfold console_draw_char
    split_ifs <;> exact ⟨hr, hc⟩

/-- Witness for the cursor-invariant claim on the game's console with the
cursor at (24, 79). -/
theorem console_ops_cursorOk_witness :
    (∀ ch : Int, cursorOk (console_putbyte
      { demoConsole with cursor_row := 24, cursor_col := 79 } ch)) ∧
    (∀ (s : List Int) (len : Int), cursorOk (console_putbytes
      { demoConsole with cursor_row := 24, cursor_col := 79 } s len)) ∧
    (∀ s : List Int, cursorOk (console_putstr
      { demoConsole with cursor_row := 24, cursor_col := 79 } s)) ∧
    cursorOk (console_clear { demoConsole with cursor_row := 24, cursor_col := 79 }) ∧
    (∀ row col : Int, cursorOk (console_set_cursor
      { demoConsole with cursor_row := 24, cursor_col := 79 } row col).1) ∧
    (∀ row col ch color : Int, cursorOk (console_draw_char
      { demoConsole with cursor_row := 24, cursor_col := 79 } row col ch color)) :=
  console_ops_cursorOk { demoConsole with cursor_row := 24, cursor_col := 79 }
    ⟨by decide, by decide⟩

/-! ## Claim C3: scrolling moves every row up by one -/

/-- Pointwise description of the clear loop: inside the cleared region the
even byte of each cell is the blank character and the odd byte the colour;
outside it the buffer is untouched. -/
theorem clear_cells_from_get (color : Int) :
    ∀ (count : Nat) (buf : Nat → Int) (base : Nat) (i : Nat),
      clear_cells_from buf base count color i =
        if base ≤ i ∧ i < base + 2 * count then
          (if (i - base) % 2 = 0 then 32 else color)
        else buf i := by
  intro count
  induction count with
  | zero =>
    intro buf base i
    rw [clear_cells_from, if_neg (by omega)]
  | succ n ih =>
    intro buf base i
    rw [clear_cells_from, ih]
    by_cases h1 : base + 2 ≤ i ∧ i < base + 2 + 2 * n
    · rw [if_pos h1,
        if_pos (show base ≤ i ∧ i < base + 2 * (n + 1) by omega)]
      have hpar : (i - (base + 2)) % 2 = (i - base) % 2 := by
        have e : i - base = i - (base + 2) + 2 := by omega
        rw [e]
        omega
      rw [hpar]
    · rw [if_neg h1]
      unfold draw_char_at_addr
      by_cases h2 : i = base
      · rw [if_pos h2,
          if_pos (show base ≤ i ∧ i < base + 2 * (n + 1) by omega),
          if_pos (show (i - base) % 2 = 0 by omega)]
      · by_cases h3 : i = base + 1
        · rw [if_neg h2, if_pos h3,
            if_pos (show base ≤ i ∧ i < base + 2 * (n + 1) by omega),
            if_neg (show ¬ (i - base) % 2 = 0 by omega)]
        · rw [if_neg h2, if_neg h3, if_neg (show
            ¬ (base ≤ i ∧ i < base + 2 * (n + 1)) by omega)]

/-- Effect of scroll_by_one on the cell contents, for a console at least as
wide as it is tall (the game's console is 80x25): every cell of rows
1..height-1 moves up one row, and the last row is blanked with the clear
colour. -/
theorem scroll_cells (c : console_t) (hhw : c.height ≤ c.width) :
    (∀ r col, 1 ≤ r → r < c.height → col < c.width →
      cellChar (scroll_by_one c) (r - 1) col = cellChar c r col ∧
      cellColor (scroll_by_one c) (r - 1) col = cellColor c r col) ∧
    (∀ col, col < c.width →
      cellChar (scroll_by_one c) (c.height - 1) col = 32 ∧
      cellColor (scroll_by_one c) (c.height - 1) col = c.clear_color) := by
  have hbuf2 : ∀ i, i < 2 * c.height * (c.width - 1) →
      ¬ (2 * ((c.height - 1) * c.width + 0) ≤ i ∧
        i < 2 * ((c.height - 1) * c.width + 0) + 2 * c.width) →
      (scroll_by_one c).buffer i = c.buffer (i + 2 * c.width) := by
    intro i hi hni
    show clear_cells_from
      (fun j => if j < 2 * c.height * (c.width - 1) then c.buffer (j + 2 * c.width)
        else c.buffer j)
      (2 * ((c.height - 1) * c.width + 0)) c.width c.clear_color i = _
    rw [clear_cells_from_get, if_neg hni]
    try dsimp only
    rw [if_pos hi]
  have hbuf3 : ∀ i, (2 * ((c.height - 1) * c.width + 0) ≤ i ∧
      i < 2 * ((c.height - 1) * c.width + 0) + 2 * c.width) →
      (scroll_by_one c).buffer i =
        if (i - 2 * ((c.height - 1) * c.width + 0)) % 2 = 0 then 32
        else c.clear_color := by
    intro i hin
    show clear_cells_from
      (fun j => if j < 2 * c.height * (c.width - 1) then c.buffer (j + 2 * c.width)
        else c.buffer j)
      (2 * ((c.height - 1) * c.width + 0)) c.width c.clear_color i = _
    rw [clear_cells_from_get, if_pos hin]
  have hsave2 : 2 * c.height * (c.width - 1) = 2 * (c.height * (c.width - 1)) := by
    ring
  constructor
  · intro r col h1 h2 h3
    have hrw : (r - 1) * c.width + c.width = r * c.width := by
      have e : r - 1 + 1 = r := by omega
      calc (r - 1) * c.width + c.width = (r - 1 + 1) * c.width := by
            rw [Nat.succ_mul]
        _ = r * c.width := by rw [e]
    have hhw1 : (c.height - 1) * c.width + c.width = c.height * c.width := by
      have e : c.height - 1 + 1 = c.height := by omega
      calc (c.height - 1) * c.width + c.width = (c.height - 1 + 1) * c.width := by
            rw [Nat.succ_mul]
        _ = c.height * c.width := by rw [e]
    have hsave : c.height * (c.width - 1) + c.height = c.height * c.width := by
      have e : c.width - 1 + 1 = c.width := by omega
      calc c.height * (c.width - 1) + c.height = c.height * (c.width - 1 + 1) := by
            rw [Nat.mul_succ]
        _ = c.height * c.width := by rw [e]
    have hrh : r * c.width ≤ (c.height - 1) * c.width :=
      Nat.mul_le_mul_right _ (by omega)
    constructor
    · show (scroll_by_one c).buffer (2 * ((r - 1) * c.width + col)) = _
      rw [hbuf2 _ (by omega) (by omega)]
      show c.buffer _ = c.buffer _
      congr 1
      show _ = 2 * (r * c.width + col)
      omega
    · show (scroll_by_one c).buffer (2 * ((r - 1) * c.width + col) + 1) = _
      rw [hbuf2 _ (by omega) (by omega)]
      show c.buffer _ = c.buffer _
      congr 1
      show _ = 2 * (r * c.width + col) + 1
      omega
  · intro col h3
    constructor
    · show (scroll_by_one c).buffer (2 * ((c.height - 1) * c.width + col)) = 32
      rw [hbuf3 _ (by omega), if_pos (by omega)]
    · show (scroll_by_one c).buffer (2 * ((c.height - 1) * c.width + col) + 1) =
        c.clear_color
      rw [hbuf3 _ (by omega), if_neg (by omega)]

/-- C3: whenever console_putbyte produces the scroll signal — a newline
with the cursor on the last row, or an ordinary byte written at the last
cell — the console scrolls by exactly one row: for every row r in
1..height-1 and column, the cell that sat at (r, col) just before the
scroll (i.e. in `preScroll`, which includes the byte just written) ends up
at (r-1, col); the new last row is blank in the clear colour; and row 0's
previous content no longer appears.  Stated for consoles at least as wide
as tall, like the game's 80x25 console. -/
theorem putbyte_scrolls (c : console_t) (ch : Int)
    (hhw : c.height ≤ c.width)
    (hsig : (ch = 10 ∧ c.cursor_row = c.height - 1) ∨
      (ch ≠ 8 ∧ ch ≠ 10 ∧ ch ≠ 13 ∧ c.cursor_row = c.height - 1 ∧
        c.cursor_col = c.width - 1)) :
    (∀ r col, 1 ≤ r → r < c.height → col < c.width →
      cellChar (console_putbyte c ch) (r - 1) col = cellChar (preScroll c ch) r col ∧
      cellColor (console_putbyte c ch) (r - 1) col =
        cellColor (preScroll c ch) r col) ∧
    (∀ col, col < c.width →
      cellChar (console_putbyte c ch) (c.height - 1) col = 32 ∧
      cellColor (console_putbyte c ch) (c.height - 1) col = c.clear_color) := by
  rcases hsig with ⟨h10, hrow⟩ | ⟨h8, h10, h13, hrow, hcol⟩
  · subst h10
    have e : console_putbyte c 10 = scroll_by_one { c with cursor_col := 0 } := by
      simp [console_putbyte, newline, hrow]
    rw [e]
    exact scroll_cells { c with cursor_col := 0 } hhw
  · have e : console_putbyte c ch = scroll_by_one
        { c with
          cursor_col := 0
          buffer := draw_char_at_addr c.buffer (get_cursor_addr c) ch
            c.term_color } := by
      simp [console_putbyte, advance_cursor, h8, h10, h13, hcol, hrow]
    rw [e]
    have hs := scroll_cells
      { c with
        cursor_col := 0
        buffer := draw_char_at_addr c.buffer (get_cursor_addr c) ch c.term_color }
      hhw
    simp only [preScroll, if_neg h10]
    exact hs

/-- Witness for the scroll claim: the width-3 height-2 console with the
cursor at (1,2); writing an ordinary byte scrolls. -/
theorem putbyte_scrolls_witness :
    (∀ r col, 1 ≤ r → r < tinyConsole.height → col < tinyConsole.width →
      cellChar (console_putbyte tinyConsole 120) (r - 1) col =
        cellChar (preScroll tinyConsole 120) r col ∧
      cellColor (console_putbyte tinyConsole 120) (r - 1) col =
        cellColor (preScroll tinyConsole 120) r col) ∧
    (∀ col, col < tinyConsole.width →
      cellChar (console_putbyte tinyConsole 120) (tinyConsole.height - 1) col = 32 ∧
      cellColor (console_putbyte tinyConsole 120) (tinyConsole.height - 1) col =
        tinyConsole.clear_color) :=
  putbyte_scrolls tinyConsole 120 (by decide)
    (Or.inr ⟨by decide, by decide, by decide, by decide, by decide⟩)

end Game2048
